import Mathlib

/-!
Verification of `scripts/spain_route_map.py`.

The script is a thin orchestration layer: it URL-encodes parameters, builds a
Google-Maps share link, calls the Directions API (modelled here by passing the
parsed JSON response as a value), sums leg distances/durations, formats them,
and saves a static-map image guarded by a try/except.

Embedding conventions:
* Python values coming out of `json.loads` are modelled by `JValue`
  (JSON numbers are restricted to integers, the only numeric payloads the
  script's code paths and the claims exercise).
* Raising an exception is modelled by `Except PyErr`.
* The two `urllib.request.urlopen` calls are a network boundary: `run` takes
  the result of each fetch as a parameter and counts attempted calls.
* CPython floats (`meters / 1000.0`, `round`, `f"{km:.1f}"`) are modelled
  exactly, in integer arithmetic: a binary64 value is a dyadic pair
  `(s, k)` denoting `s * 2^k`, produced by correct rounding to 53 significant
  bits with ties to even, which is the IEEE-754 behaviour CPython exposes
  (including the double rounding in `int / float` division: the int is first
  converted to binary64, then the division result is rounded again).
-/

/-- Python exceptions distinguished by the script's possible error paths. -/
inductive PyErr where
  | runtimeError (msg : String)
  | keyError (key : String)
  | indexError
  | typeError
  | attributeError
  | valueError
  | urlError (msg : String)
deriving DecidableEq

/-- Parsed JSON values (`json.loads` output). Numbers are restricted to
integers: the Directions fields the script reads (`value`, `waypoint_order`)
are integer-valued, and no claim exercises float-valued JSON. -/
inductive JValue where
  | null
  | bool (b : Bool)
  | int (n : Int)
  | str (s : String)
  | arr (elems : List JValue)
  | obj (fields : List (String × JValue))

/-- Association-list lookup, first match wins (parsed JSON dicts have unique
keys). -/
def alookup : List (String × JValue) → String → Option JValue
  | [], _ => none
  | (k, v) :: t, key => if k = key then some v else alookup t key

/-- Python `d.get(key, dflt)`: `AttributeError` when the receiver is not a
dict. -/
def dictGet (j : JValue) (key : String) (dflt : JValue) : Except PyErr JValue :=
  match j with
  | .obj kvs => .ok ((alookup kvs key).getD dflt)
  | _ => .error .attributeError

/-- Python `d[key]` with a string key: `KeyError` when missing; subscripting a
list/str/int with a string key is a `TypeError`. -/
def dictIndex (j : JValue) (key : String) : Except PyErr JValue :=
  match j with
  | .obj kvs =>
    match alookup kvs key with
    | some v => .ok v
    | none => .error (.keyError key)
  | _ => .error .typeError

/-- Python list indexing `xs[i]`: negative indices count from the end,
out-of-range raises `IndexError`. -/
def pyIndex {α : Type} (xs : List α) (i : Int) : Except PyErr α :=
  let j := if i < 0 then i + xs.length else i
  if 0 ≤ j then
    match xs.get? j.toNat with
    | some a => .ok a
    | none => .error .indexError
  else .error .indexError

/-- Python `seq[i]` with an integer index: lists index, strings yield
one-character strings, dicts raise `KeyError` (parsed JSON keys are strings),
other values are not subscriptable. -/
def seqIndex (j : JValue) (i : Int) : Except PyErr JValue :=
  match j with
  | .arr xs => pyIndex xs i
  | .str s => (pyIndex s.data i).map (fun c => .str (String.singleton c))
  | .obj _ => .error (.keyError (toString i))
  | _ => .error .typeError

/-- Python iteration `for x in j`: lists yield elements, strings yield
one-character strings, dicts yield their keys, other values raise
`TypeError`. -/
def iterate : JValue → Except PyErr (List JValue)
  | .arr xs => .ok xs
  | .str s => .ok (s.data.map (fun c => .str (String.singleton c)))
  | .obj kvs => .ok (kvs.map (fun kv => .str kv.1))
  | _ => .error .typeError

/-- Python truthiness of a parsed JSON value. -/
def pyFalsy : JValue → Bool
  | .null => true
  | .bool b => !b
  | .int n => n == 0
  | .str s => s.isEmpty
  | .arr xs => xs.isEmpty
  | .obj kvs => kvs.isEmpty

/-- Python `int(x)` on a parsed JSON value. Numeric-string parsing uses
`String.toInt?` (the script only ever converts integers and the falsy
constant 0). -/
def pyInt : JValue → Except PyErr Int
  | .int n => .ok n
  | .bool b => .ok (if b then 1 else 0)
  | .str s =>
    match s.toInt? with
    | some n => .ok n
    | none => .error .valueError
  | _ => .error .typeError

/-- Python `repr` of a parsed JSON value, used for elements inside the
rendering of containers (string escaping of quote characters inside string
payloads is not reproduced; no claim prints a container). -/
def pyRepr : JValue → String
  | .null => "None"
  | .bool true => "True"
  | .bool false => "False"
  | .int n => toString n
  | .str s => "'" ++ s ++ "'"
  | .arr xs => "[" ++ String.intercalate ", " (xs.attach.map (fun x => pyRepr x.1)) ++ "]"
  | .obj kvs =>
    "\x7b" ++
      String.intercalate ", "
        (kvs.attach.map (fun kv => "'" ++ kv.1.1 ++ "': " ++ pyRepr kv.1.2)) ++
      "\x7d"
decreasing_by
  · have h := List.sizeOf_lt_of_mem x.2
    simp at h ⊢
    omega
  · have h := List.sizeOf_lt_of_mem kv.2
    obtain ⟨⟨k, v⟩, hm⟩ := kv
    simp at h ⊢
    omega

/-- Python `str` of a parsed JSON value, as interpolated by an f-string. -/
def pyStr : JValue → String
  | .str s => s
  | v => pyRepr v

/-! ### Percent-encoding (`urllib.parse.quote`) -/

/-- UTF-8 encoding of one character. -/
def utf8Char (c : Char) : List Nat :=
  let n := c.toNat
  if n < 128 then [n]
  else if n < 2048 then [192 + n / 64, 128 + n % 64]
  else if n < 65536 then [224 + n / 4096, 128 + n / 64 % 64, 128 + n % 64]
  else [240 + n / 262144, 128 + n / 4096 % 64, 128 + n / 64 % 64, 128 + n % 64]

/-- UTF-8 encoding of a string (Python encodes to UTF-8 before quoting). -/
def utf8Str (s : String) : List Nat := s.data.flatMap utf8Char

/-- Upper-case hex digit, as emitted by `urllib.parse.quote`. -/
def hexDigitChar (n : Nat) : Char :=
  if n < 10 then Char.ofNat (48 + n) else Char.ofNat (55 + n)

/-- The `%XX` escape of one byte. -/
def pctHex (b : Nat) : List Char := ['%', hexDigitChar (b / 16), hexDigitChar (b % 16)]

/-- Bytes `urllib.parse.quote` never escapes: ASCII letters, digits, and
`_.-~`. -/
def alwaysSafeByte (b : Nat) : Bool :=
  (65 ≤ b && b ≤ 90) || (97 ≤ b && b ≤ 122) || (48 ≤ b && b ≤ 57) ||
    b == 95 || b == 46 || b == 45 || b == 126

/-- Whether a byte is left unescaped given the extra `safe` characters. -/
def byteSafe (safe : List Char) (b : Nat) : Bool :=
  alwaysSafeByte b || (b < 128 && safe.any (fun c => c.toNat == b))

/-- `urllib.parse.quote(value, safe=safe)`. -/
def quote (value : String) (safe : List Char) : String :=
  String.mk ((utf8Str value).flatMap
    (fun b => if byteSafe safe b then [Char.ofNat b] else pctHex b))

/-- The script's default safe set `"-._~|,:"`. -/
def defaultSafe : List Char := ['-', '.', '_', '~', '|', ',', ':']

/-- Source `_encode_param(value)`: quote with separators `|`, `,`, `:` kept. -/
def encode_param (value : String) : String := quote value defaultSafe

/-! Standard decoding, used to state the round-trip claim: percent-decode to
bytes, then UTF-8-decode. -/

/-- Value of a hex digit (both cases accepted by standard decoders). -/
def hexVal (c : Char) : Option Nat :=
  if 48 ≤ c.toNat ∧ c.toNat ≤ 57 then some (c.toNat - 48)
  else if 65 ≤ c.toNat ∧ c.toNat ≤ 70 then some (c.toNat - 55)
  else if 97 ≤ c.toNat ∧ c.toNat ≤ 102 then some (c.toNat - 87)
  else none

/-- Percent-decode a character sequence to bytes; unescaped characters stand
for their UTF-8 bytes, a stray `%` is rejected. -/
def percentDecodeChars : List Char → Option (List Nat)
  | [] => some []
  | c :: t =>
    if c = '%' then
      match t with
      | a :: b :: t2 =>
        match hexVal a, hexVal b with
        | some ha, some hb => (percentDecodeChars t2).map (fun r => (16 * ha + hb) :: r)
        | _, _ => none
      | _ => none
    else (percentDecodeChars t).map (fun r => utf8Char c ++ r)

/-- Whether a byte is a UTF-8 continuation byte. -/
def contByte (b : Nat) : Bool := 128 ≤ b && b < 192

/-- Decode one UTF-8-encoded code point from the front of a byte list
(strict: overlong forms and surrogates rejected), returning it with the
remaining bytes. -/
def utf8DecodeOne : List Nat → Option (Nat × List Nat)
  | [] => none
  | b0 :: t =>
    if b0 < 128 then some (b0, t)
    else if b0 < 192 then none
    else if b0 < 224 then
      match t with
      | b1 :: t1 =>
        if contByte b1 ∧ 128 ≤ (b0 - 192) * 64 + (b1 - 128) then
          some ((b0 - 192) * 64 + (b1 - 128), t1)
        else none
      | [] => none
    else if b0 < 240 then
      match t with
      | b1 :: b2 :: t2 =>
        if contByte b1 ∧ contByte b2 ∧
            2048 ≤ (b0 - 224) * 4096 + (b1 - 128) * 64 + (b2 - 128) ∧
            ¬(55296 ≤ (b0 - 224) * 4096 + (b1 - 128) * 64 + (b2 - 128) ∧
              (b0 - 224) * 4096 + (b1 - 128) * 64 + (b2 - 128) < 57344) then
          some ((b0 - 224) * 4096 + (b1 - 128) * 64 + (b2 - 128), t2)
        else none
      | _ => none
    else if b0 < 248 then
      match t with
      | b1 :: b2 :: b3 :: t3 =>
        if contByte b1 ∧ contByte b2 ∧ contByte b3 ∧
            65536 ≤ (b0 - 240) * 262144 + (b1 - 128) * 4096 + (b2 - 128) * 64 +
              (b3 - 128) ∧
            (b0 - 240) * 262144 + (b1 - 128) * 4096 + (b2 - 128) * 64 + (b3 - 128) <
              1114112 then
          some ((b0 - 240) * 262144 + (b1 - 128) * 4096 + (b2 - 128) * 64 + (b3 - 128), t3)
        else none
      | _ => none
    else none

/-- Fuelled UTF-8 decoding loop (one unit of fuel per decoded character). -/
def utf8DecodeF : Nat → List Nat → Option (List Char)
  | _, [] => some []
  | 0, _ :: _ => none
  | fuel + 1, b0 :: t =>
    match utf8DecodeOne (b0 :: t) with
    | some nt => (utf8DecodeF fuel nt.2).map (fun r => Char.ofNat nt.1 :: r)
    | none => none

/-- Strict UTF-8 decoding of a whole byte list. -/
def utf8Decode (bs : List Nat) : Option (List Char) := utf8DecodeF bs.length bs

/-- Standard URL-component decoding: percent-decode, then UTF-8 decode. -/
def urlDecode (s : String) : Option String :=
  (percentDecodeChars s.data).bind (fun bs => (utf8Decode bs).map String.mk)

/-! ### Exact integer model of the CPython float operations -/

/-- Fuelled binary logarithm (structural, so it reduces in the kernel). -/
def log2fuel : Nat → Nat → Nat
  | 0, _ => 0
  | fuel + 1, n => if n < 2 then 0 else log2fuel fuel (n / 2) + 1

/-- Floor of the binary logarithm, `natLog2 n = Nat.log2 n` for positive `n`. -/
def natLog2 (n : Nat) : Nat := log2fuel n n

/-- Round `p / q` (with `q > 0`) to the nearest integer, ties to even: the
rounding used both by IEEE-754 binary64 arithmetic and by CPython `round` and
`format`. -/
def rhe (p q : Int) : Int :=
  let f := p / q
  let r := p - q * f
  if 2 * r < q then f
  else if q < 2 * r then f + 1
  else if f % 2 = 0 then f else f + 1

/-- Round the positive rational `a / b` to binary64: the result `(s, k)`
denotes `s * 2^k` with `s` the 53-bit significand (normal range; the script's
inputs never reach subnormals or infinity). -/
def fl64Pos (a b : Nat) : Int × Int :=
  let e : Int := (natLog2 (a * 2 ^ 64 / b) : Int) - 64
  if e ≤ 52 then (rhe ((a : Int) * 2 ^ (52 - e).toNat) b, e - 52)
  else (rhe a ((b : Int) * 2 ^ (e - 52).toNat), e - 52)

/-- The binary64 value of Python `m / 1000.0` for a nonnegative int `m`:
`float(m)` (first rounding), then correctly rounded division by the exact
constant 1000.0 (second rounding). -/
def flDiv1000 (m : Nat) : Int × Int :=
  if m = 0 then (0, 0)
  else
    let sk := fl64Pos m 1
    if 0 ≤ sk.2 then fl64Pos (sk.1.toNat * 2 ^ sk.2.toNat) 1000
    else fl64Pos sk.1.toNat (1000 * 2 ^ (-sk.2).toNat)

/-- Decide `s * 2^k ≥ c` for a dyadic value. -/
def dyGe (s k c : Int) : Bool :=
  if 0 ≤ k then c ≤ s * 2 ^ k.toNat else c * 2 ^ (-k).toNat ≤ s

/-- CPython `round` on the dyadic value `s * 2^k`: nearest integer, ties to
even. -/
def roundDy (s k : Int) : Int :=
  if 0 ≤ k then s * 2 ^ k.toNat else rhe s (2 ^ (-k).toNat)

/-- Source `format_distance_meters(meters)`. `km` is the binary64 value of
`meters / 1000.0`; `int(round(km))` and `f"{km:.1f}"` are the correctly
rounded integer / one-decimal renderings of that binary64 value (ties to
even), which is what CPython produces. The sign prefix mirrors CPython's
`-0.0`-style output for negative floats (unreachable: API distances are
nonnegative, and every claim is about nonnegative meters). -/
def format_distance_meters (meters : Int) : String :=
  let sk := flDiv1000 meters.natAbs
  let s := if meters < 0 then -sk.1 else sk.1
  let k := sk.2
  if dyGe s k 10 then s!"{roundDy s k} km"
  else
    let d := roundDy (10 * s) k
    (if s < 0 then "-" else "") ++ s!"{d.natAbs / 10}.{d.natAbs % 10} km"

/-- Python `sep.join(parts)`. -/
def join_sep (sep : String) : List String → String
  | [] => ""
  | [x] => x
  | x :: y :: t => x ++ sep ++ join_sep sep (y :: t)

/-- Source `format_duration_seconds(seconds)`. Python `//` and `%` are floor
division and nonnegative remainder for these positive divisors, i.e.
`Int.ediv` / `Int.emod`. -/
def format_duration_seconds (seconds : Int) : String :=
  let hours := seconds / 3600
  let minutes := seconds % 3600 / 60
  let parts : List String := if hours ≠ 0 then [s!"{hours}h"] else []
  let parts2 : List String :=
    if minutes ≠ 0 ∨ parts = [] then parts ++ [s!"{minutes}m"] else parts
  join_sep " " parts2

/-! ### The script's data and operations -/

/-- The fixed list of stops (source `PLACES`). -/
def PLACES : List String :=
  ["Royal Monastery of El Escorial, San Lorenzo de El Escorial, Spain",
   "Royal Palace of Madrid, Madrid, Spain",
   "Almudena Cathedral, Madrid, Spain",
   "San Ginés de Arlés Church, Madrid, Spain",
   "Toledo Cathedral, Toledo, Spain"]

/-- The slice `places[1:-1]`. -/
def midSlice (places : List String) : List String := (places.drop 1).dropLast

/-- Whether an `Except` is in the error state (a raised exception). -/
def errored {α : Type} : Except PyErr α → Bool
  | .error _ => true
  | .ok _ => false

/-- Python `status != "OK"` is false exactly for the string `"OK"`. -/
def isOkStatus : JValue → Bool
  | .str s => s = "OK"
  | _ => false

/-- Source `build_gmaps_share_link(places, optimized)`. The `optimized`
argument models the waypoint-order list (all-integer by the time the script
passes it, see `optimized_waypoints`). -/
def build_gmaps_share_link (places : List String) (optimized : Option (List Int)) :
    Except PyErr String := do
  let origin ← pyIndex places 0
  let destination ← pyIndex places (-1)
  let mids := midSlice places
  let waypoints_list ←
    match optimized with
    | some ord => ord.mapM (fun i => pyIndex mids i)
    | none => pure mids
  let params : List (String × String) :=
    [("api", "1"), ("origin", origin), ("destination", destination),
     ("travelmode", "driving")] ++
      (if waypoints_list = [] then [] else
        [("waypoints", join_sep "|" waypoints_list)])
  return "https://www.google.com/maps/dir/?" ++
    join_sep "&" (params.map (fun kv => kv.1 ++ "=" ++ encode_param kv.2))

/-- The request URL built by `call_directions` (source lines 90-108); the
HTTP GET itself is a network boundary handled in `run`. -/
def directions_url (api_key : String) (places : List String) :
    Except PyErr String := do
  let origin ← pyIndex places 0
  let destination ← pyIndex places (-1)
  let waypoints := midSlice places
  let params : List (String × String) :=
    [("origin", origin), ("destination", destination), ("mode", "driving"),
     ("language", "en"), ("key", api_key)] ++
      (if waypoints = [] then [] else
        [("waypoints", "optimize:true|" ++ join_sep "|" waypoints)])
  return "https://maps.googleapis.com/maps/api/directions/json?" ++
    join_sep "&" (params.map (fun kv => kv.1 ++ "=" ++ encode_param kv.2))

/-- The parsed route information returned by `call_directions`. -/
structure DirectionsResult where
  waypoint_order : JValue
  legs : JValue
  polyline : JValue

/-- Source `call_directions` response handling (lines 110-124): `data` is the
parsed JSON body of the GET. Raises unless `status == "OK"`; then reads
`routes[0]`, defaulting `waypoint_order` to `list(range(len(waypoints)))`,
`legs` to `[]` and the overview polyline to `""`. -/
def call_directions (places : List String) (data : JValue) :
    Except PyErr DirectionsResult := do
  let waypoints := midSlice places
  let status ← dictGet data "status" .null
  if isOkStatus status then
    let routes ← dictIndex data "routes"
    let route ← seqIndex routes 0
    let worder ← dictGet route "waypoint_order"
      (.arr ((List.range waypoints.length).map (fun i => .int i)))
    let legs ← dictGet route "legs" (.arr [])
    let opoly ← dictGet route "overview_polyline" (.obj [])
    let points ← dictGet opoly "points" (.str "")
    return ⟨worder, legs, points⟩
  else
    let em ← dictGet data "error_message" (.str "")
    throw (.runtimeError
      ("Directions API error: " ++ pyStr status ++ " - " ++ pyStr em))

/-- Source `marker_label(i)`: single-character labels 1..9 then A, B, ... -/
def marker_label (i : Nat) : String :=
  if 1 ≤ i ∧ i ≤ 9 then toString i else String.singleton (Char.ofNat (65 + (i - 10)))

/-- The Static Maps request URL built by `save_static_map` (the GET and the
file write are a network boundary handled in `run`). -/
def static_map_url (api_key : String) (polyline : String) (ordered_places : List String) :
    String :=
  let markers := ordered_places.enum.map
    (fun ip => ("markers", "color:blue|label:" ++ marker_label (ip.1 + 1) ++ "|" ++ ip.2))
  let path_value := "enc:" ++ quote polyline []
  let items := [("size", "800x600"), ("key", api_key), ("path", path_value)] ++ markers
  "https://maps.googleapis.com/maps/api/staticmap?" ++
    join_sep "&" (items.map (fun kv => kv.1 ++ "=" ++ encode_param kv.2))

/-- One iteration of the totals loop (main lines 214-217): nested `.get`
chains with `{}` / 0 defaults, then `int(dist or 0)` / `int(dur or 0)`. -/
def leg_totals (leg : JValue) : Except PyErr (Int × Int) := do
  let distObj ← dictGet leg "distance" (.obj [])
  let dist ← dictGet distObj "value" (.int 0)
  let durObj ← dictGet leg "duration" (.obj [])
  let dur ← dictGet durObj "value" (.int 0)
  let dm ← pyInt (if pyFalsy dist then .int 0 else dist)
  let ds ← pyInt (if pyFalsy dur then .int 0 else dur)
  return (dm, ds)

/-- The totals loop of `main` (lines 210-217). -/
def compute_totals (legs : JValue) : Except PyErr (Int × Int) := do
  let elems ← iterate legs
  elems.foldlM
    (fun acc leg => do
      let td ← leg_totals leg
      return (acc.1 + td.1, acc.2 + td.2))
    ((0 : Int), (0 : Int))

/-- A list index taken from a parsed JSON value: Python accepts ints (and
bools, which are ints); anything else raises `TypeError`. -/
def toIndex : JValue → Except PyErr Int
  | .int n => .ok n
  | .bool b => .ok (if b then 1 else 0)
  | _ => .error .typeError

/-- The comprehension `[PLACES[1:-1][i] for i in waypoint_order]` (main line
207), keeping the integer indices for the later share-link call. -/
def optimized_waypoints (mids : List String) (worder : JValue) :
    Except PyErr (List Int × List String) := do
  let elems ← iterate worder
  let pairs ← elems.mapM (fun v => do
    let i ← toIndex v
    let p ← pyIndex mids i
    return (i, p))
  return (pairs.map (fun x => x.1), pairs.map (fun x => x.2))

/-- The observable outcome of one run of `main`: the printed lines (one entry
per `print` call, embedded newlines kept), the number of attempted network
calls, and the uncaught exception if the run was terminated by one. -/
structure RunResult where
  output : List String
  netCalls : Nat
  uncaught : Option PyErr
deriving DecidableEq

/-- The stops header printed first (main lines 187-190). -/
def stops_header : List String :=
  "Spain Trip Planned Stops (from memories):" ::
    ((PLACES.enum.map (fun ip => s!"  {ip.1 + 1}. {ip.2}")) ++ [""])

/-- The itinerary block (main lines 219-221). -/
def itinerary_lines (ordered : List String) : List String :=
  "Optimized Itinerary:" :: ordered.enum.map (fun ip => s!"  {ip.1 + 1}. {ip.2}")

/-- Main lines 200-229 once the Directions GET body `data` is in hand:
returns the output printed so far paired with the uncaught exception, if one
was raised before the static-map step. -/
def main_body (data : JValue) : List String × Option PyErr :=
  match call_directions PLACES data with
  | .error e => (stops_header, some e)
  | .ok info =>
    match optimized_waypoints (midSlice PLACES) info.waypoint_order with
    | .error e => (stops_header, some e)
    | .ok ow =>
      match pyIndex PLACES 0, pyIndex PLACES (-1) with
      | .ok p0, .ok pl =>
        let ordered := p0 :: ow.2 ++ [pl]
        match compute_totals info.legs with
        | .error e => (stops_header, some e)
        | .ok t =>
          let pre := stops_header ++ itinerary_lines ordered ++
            [s!"\nTotal Distance: {format_distance_meters t.1}",
             s!"Total Duration: {format_duration_seconds t.2}"]
          match build_gmaps_share_link PLACES (some ow.1) with
          | .error e => (pre, some e)
          | .ok link =>
            (pre ++ ["\nOpen this link for directions (optimized order):", link], none)
      | _, _ => (stops_header, some .indexError)

/-- Source `main()`. `api_key` is `os.environ.get("GOOGLE_MAPS_API_KEY")`;
`directions_fetch` is the outcome of the Directions GET (error = network
failure, ok = parsed JSON body); `static_map_fetch` is the outcome of the
Static Maps GET plus file write, whose exception text is caught and logged.
Each attempted `urlopen` counts one network call. -/
def run (api_key : Option String) (directions_fetch : Except String JValue)
    (static_map_fetch : Except String Unit) : RunResult :=
  if api_key.getD "" = "" then
    match build_gmaps_share_link PLACES none with
    | .ok link =>
      ⟨stops_header ++
        ["No GOOGLE_MAPS_API_KEY found. Skipping Directions API call.",
         "Open this link for directions (original order):", link,
         "\nTo compute optimized route and download a static map image, set GOOGLE_MAPS_API_KEY and re-run."],
        0, none⟩
    | .error e =>
      ⟨stops_header ++ ["No GOOGLE_MAPS_API_KEY found. Skipping Directions API call."],
        0, some e⟩
  else
    match directions_fetch with
    | .error msg => ⟨stops_header, 1, some (.urlError msg)⟩
    | .ok data =>
      match main_body data with
      | (out, some e) => ⟨out, 1, some e⟩
      | (out, none) =>
        match static_map_fetch with
        | .ok _ =>
          ⟨out ++ ["\nStatic route map saved to: spain_route.png"], 2, none⟩
        | .error e =>
          ⟨out ++ [s!"\nFailed to save static map image: {e}"], 2, none⟩

/-! ### Spec-side definitions used to state the claims -/

/-- Whether a parsed value is a JSON object. -/
def is_obj : JValue → Bool
  | .obj _ => true
  | _ => false

/-- The `status` value `call_directions` reads: `data.get("status")`, `None`
when missing (meaningful only for object responses). -/
def status_of (data : JValue) : JValue :=
  match data with
  | .obj kvs => (alookup kvs "status").getD .null
  | _ => .null

/-- The `error_message` value used in the raised message: 
`data.get("error_message", "")`. -/
def errmsg_of (data : JValue) : JValue :=
  match data with
  | .obj kvs => (alookup kvs "error_message").getD (.str "")
  | _ => .str ""

/-- Shape of an OK response on which `call_directions` cannot raise after the
status check: `routes` is a nonempty list whose first element is an object,
and its `overview_polyline`, when present, is an object. -/
def routes_ok (data : JValue) : Bool :=
  match data with
  | .obj kvs =>
    match alookup kvs "routes" with
    | some (.arr (.obj rkvs :: _)) =>
      (match alookup rkvs "overview_polyline" with
       | none => true
       | some (.obj _) => true
       | some _ => false)
    | _ => false
  | _ => false

/-- The `overview_polyline` of a route object, when present, is an object
(so that the `.get("points", "")` chain cannot raise). -/
def opoly_ok (rkvs : List (String × JValue)) : Bool :=
  match alookup rkvs "overview_polyline" with
  | none => true
  | some (.obj _) => true
  | some _ => false

/-- A leg as claim C10 describes it: an object whose `distance` / `duration`
fields are absent or objects whose `value` is absent, `None`, or an
integer. -/
def leg_wf (leg : JValue) : Bool :=
  match leg with
  | .obj kvs =>
    (match alookup kvs "distance" with
     | none => true
     | some (.obj dk) =>
       (match alookup dk "value" with
        | none => true
        | some .null => true
        | some (.int _) => true
        | some _ => false)
     | some _ => false) &&
    (match alookup kvs "duration" with
     | none => true
     | some (.obj dk) =>
       (match alookup dk "value" with
        | none => true
        | some .null => true
        | some (.int _) => true
        | some _ => false)
     | some _ => false)
  | _ => false

/-- The distance a leg contributes to the total per claim C10: the integer
`distance.value`, with a missing object, missing field, or `None`/zero value
contributing 0. -/
def dist_of (leg : JValue) : Int :=
  match leg with
  | .obj kvs =>
    match alookup kvs "distance" with
    | some (.obj dk) =>
      (match alookup dk "value" with
       | some (.int n) => n
       | _ => 0)
    | _ => 0
  | _ => 0

/-- The duration a leg contributes to the total per claim C10. -/
def dur_of (leg : JValue) : Int :=
  match leg with
  | .obj kvs =>
    match alookup kvs "duration" with
    | some (.obj dk) =>
      (match alookup dk "value" with
       | some (.int n) => n
       | _ => 0)
    | _ => 0
  | _ => 0

/-- The per-field well-formedness check of `leg_wf`, factored out: the field
is absent or an object whose `value` is absent, `None`, or an integer. -/
def field_wf (kvs : List (String × JValue)) (field : String) : Bool :=
  match alookup kvs field with
  | none => true
  | some (.obj dk) =>
    (match alookup dk "value" with
     | none => true
     | some .null => true
     | some (.int _) => true
     | some _ => false)
  | some _ => false

/-- The integer a leg field contributes to a total: its `value` when present
and an integer, 0 otherwise. -/
def field_val (kvs : List (String × JValue)) (field : String) : Int :=
  match alookup kvs field with
  | some (.obj dk) =>
    (match alookup dk "value" with
     | some (.int n) => n
     | _ => 0)
  | _ => 0

/-- A character the encoder leaves unchanged: ASCII and in the unreserved
set or the extra safe set `-._~|,:`. -/
def charSafe (c : Char) : Bool :=
  decide (c.toNat < 128) && byteSafe defaultSafe c.toNat

/-- Per-character view of `encode_param`: safe characters pass through, any
other character appears as the `%XX` escapes of its UTF-8 bytes. -/
def encChar (c : Char) : List Char :=
  if charSafe c then [c] else (utf8Char c).flatMap pctHex

/-- The URL shape claim C3 asserts for the share link, written from the
claim: origin is the first place, destination the last, waypoints the middle
places joined by `|`, travel mode driving; the waypoints parameter is present
exactly when there are middle places. -/
def spec_share_url (origin destination : String) (waypoints : List String) : String :=
  "https://www.google.com/maps/dir/?api=1&origin=" ++ encode_param origin ++
    "&destination=" ++ encode_param destination ++ "&travelmode=driving" ++
    (if waypoints = [] then ""
     else "&waypoints=" ++ encode_param (join_sep "|" waypoints))

/-! ### Helper lemmas: indexing -/

theorem pyIndex_nat {α : Type} (xs : List α) (d : α) (i : Int) (h0 : 0 ≤ i)
    (h1 : i.toNat < xs.length) : pyIndex xs i = .ok (xs.getD i.toNat d) := by
  have hneg : ¬ i < 0 := by omega
  have hg : xs.get? i.toNat = some (xs.getD i.toNat d) := by
    rw [List.get?_eq_getElem?, List.getElem?_eq_getElem h1, List.getD_eq_getElem xs d h1]
  simp only [pyIndex, if_neg hneg, if_pos h0, hg]

theorem pyIndex_zero {α : Type} (xs : List α) (d : α) (h : 0 < xs.length) :
    pyIndex xs 0 = .ok (xs.getD 0 d) :=
  pyIndex_nat xs d 0 le_rfl (by simpa using h)

theorem pyIndex_last {α : Type} (xs : List α) (d : α) (h : 0 < xs.length) :
    pyIndex xs (-1) = .ok (xs.getD (xs.length - 1) d) := by
  have hneg : (-1 : Int) < 0 := by omega
  have h0 : (0 : Int) ≤ -1 + xs.length := by omega
  have ht : (-1 + (xs.length : Int)).toNat = xs.length - 1 := by omega
  have hlt : xs.length - 1 < xs.length := by omega
  have hg : xs.get? (-1 + (xs.length : Int)).toNat = some (xs.getD (xs.length - 1) d) := by
    rw [ht, List.get?_eq_getElem?, List.getElem?_eq_getElem hlt,
      List.getD_eq_getElem xs d hlt]
  simp only [pyIndex, if_pos hneg, if_pos h0, hg]

theorem mapM_pyIndex (mids : List String) (ord : List Int) (d : String)
    (h : ∀ i ∈ ord, 0 ≤ i ∧ i.toNat < mids.length) :
    ord.mapM (fun i => pyIndex mids i) = .ok (ord.map (fun i => mids.getD i.toNat d)) := by
  induction ord with
  | nil => rfl
  | cons a t ih =>
    have ha := h a (by simp)
    simp only [List.mapM_cons]
    rw [pyIndex_nat mids d a ha.1 ha.2, ih (fun i hi => h i (by simp [hi]))]
    rfl

theorem optimized_waypoints_int (mids : List String) (ord : List Int)
    (h : ∀ i ∈ ord, 0 ≤ i ∧ i.toNat < mids.length) :
    optimized_waypoints mids (.arr (ord.map (fun i => .int i))) =
      .ok (ord, ord.map (fun i => mids.getD i.toNat "")) := by
  have key : ∀ (o : List Int), (∀ i ∈ o, 0 ≤ i ∧ i.toNat < mids.length) →
      (o.map (fun i => JValue.int i)).mapM
          (fun v => do
            let i ← toIndex v
            let p ← pyIndex mids i
            return (i, p)) =
        .ok (o.map (fun i => (i, mids.getD i.toNat ""))) := by
    intro o
    induction o with
    | nil => intro _; rfl
    | cons a t ih =>
      intro ho
      have ha := ho a (by simp)
      have hstep : (do
          let i ← toIndex (JValue.int a)
          let p ← pyIndex mids i
          return (i, p) : Except PyErr (Int × String)) =
          .ok (a, mids.getD a.toNat "") := by
        show (do
          let p ← pyIndex mids a
          return (a, p) : Except PyErr (Int × String)) = _
        rw [pyIndex_nat mids "" a ha.1 ha.2]
        rfl
      simp only [List.map_cons, List.mapM_cons]
      rw [hstep, ih (fun i hi => ho i (by simp [hi]))]
      rfl
  have heq : optimized_waypoints mids (.arr (ord.map (fun i => JValue.int i))) =
      ((ord.map (fun i => JValue.int i)).mapM
          (fun v => do
            let i ← toIndex v
            let p ← pyIndex mids i
            return (i, p)) >>=
        fun pairs => .ok (pairs.map (fun x => x.1), pairs.map (fun x => x.2))) := rfl
  have unz1 : ∀ (o : List Int),
      (o.map (fun i => (i, mids.getD i.toNat ""))).map (fun x => x.1) = o := by
    intro o
    induction o with
    | nil => rfl
    | cons a t ih =>
      simp only [List.map_cons]
      rw [ih]
  have unz2 : ∀ (o : List Int),
      (o.map (fun i => (i, mids.getD i.toNat ""))).map (fun x => x.2) =
        o.map (fun i => mids.getD i.toNat "") := by
    intro o
    induction o with
    | nil => rfl
    | cons a t ih =>
      simp only [List.map_cons]
      rw [ih]
  rw [heq, key ord h]
  show Except.ok ((ord.map (fun i => (i, mids.getD i.toNat ""))).map (fun x => x.1),
    (ord.map (fun i => (i, mids.getD i.toNat ""))).map (fun x => x.2)) = _
  rw [unz1 ord, unz2 ord]

/-! ### Helper lemmas: round-half-even and binary logarithm -/

theorem rhe_bound (p q : Int) (hq : 0 < q) :
    -q ≤ 2 * (q * rhe p q - p) ∧ 2 * (q * rhe p q - p) ≤ q := by
  unfold rhe
  dsimp only
  have hd := Int.ediv_add_emod p q
  have h0 : 0 ≤ p % q := Int.emod_nonneg p (by omega)
  have h1 : p % q < q := Int.emod_lt_of_pos p hq
  have hmul : q * (p / q + 1) = q * (p / q) + q := by ring
  split_ifs <;> omega

theorem rhe_spec (q k r : Int) (hq : 0 < q) (hr0 : 0 ≤ r) (hr1 : r < q) :
    rhe (q * k + r) q =
      if 2 * r < q then k else if q < 2 * r then k + 1
      else if k % 2 = 0 then k else k + 1 := by
  have hdm : (q * k + r) / q = k ∧ (q * k + r) % q = r :=
    (Int.ediv_emod_unique hq).2 ⟨by ring, hr0, hr1⟩
  unfold rhe
  dsimp only
  rw [hdm.1]
  have hr : q * k + r - q * k = r := by ring
  rw [hr]

theorem rhe_exact (q k : Int) (hq : 0 < q) : rhe (q * k) q = k := by
  have h := rhe_spec q k 0 hq le_rfl hq
  rw [show q * k + 0 = q * k by ring] at h
  rw [h, if_pos (by omega : 2 * (0:Int) < q)]

theorem log2fuel_spec : ∀ (fuel n : Nat), 0 < n → n < 2 ^ fuel →
    2 ^ log2fuel fuel n ≤ n ∧ n < 2 ^ (log2fuel fuel n + 1) := by
  intro fuel
  induction fuel with
  | zero =>
    intro n h0 h1
    simp at h1
    omega
  | succ f ih =>
    intro n h0 h1
    by_cases h2 : n < 2
    · simp only [log2fuel, if_pos h2]
      constructor
      · simpa using h0
      · simpa using h2
    · have hd : 0 < n / 2 := by omega
      have hpow : (2:Nat) ^ (f + 1) = 2 * 2 ^ f := by ring
      have hlt : n / 2 < 2 ^ f := by omega
      obtain ⟨l1, l2⟩ := ih (n / 2) hd hlt
      simp only [log2fuel, if_neg h2]
      have e1 : (2:Nat) ^ (log2fuel f (n / 2) + 1) = 2 * 2 ^ log2fuel f (n / 2) := by ring
      have e2 : (2:Nat) ^ (log2fuel f (n / 2) + 1 + 1) = 2 * 2 ^ (log2fuel f (n / 2) + 1) := by
        ring
      omega

theorem natLog2_spec (n : Nat) (h : 0 < n) :
    2 ^ natLog2 n ≤ n ∧ n < 2 ^ (natLog2 n + 1) :=
  log2fuel_spec n n h (Nat.lt_two_pow n)

theorem natLog2_unique (n a : Nat) (h : 0 < n) (h1 : 2 ^ a ≤ n) (h2 : n < 2 ^ (a + 1)) :
    natLog2 n = a := by
  obtain ⟨l1, l2⟩ := natLog2_spec n h
  by_contra hne
  rcases Nat.lt_or_ge (natLog2 n) a with hlt | hge
  · have hle : (2:Nat) ^ (natLog2 n + 1) ≤ 2 ^ a := Nat.pow_le_pow_right (by norm_num) hlt
    omega
  · have ha : a + 1 ≤ natLog2 n := by omega
    have hle : (2:Nat) ^ (a + 1) ≤ 2 ^ natLog2 n := Nat.pow_le_pow_right (by norm_num) ha
    omega

theorem rhe_one (p : Int) : rhe p 1 = p := by
  unfold rhe
  dsimp only
  rw [Int.ediv_one]
  have h1 : p - 1 * p = 0 := by ring
  rw [h1]
  norm_num

theorem rhe_mul_cancel (c p q : Int) (hc : 0 < c) (hq : 0 < q) :
    rhe (c * p) (c * q) = rhe p q := by
  unfold rhe
  dsimp only
  rw [Int.mul_ediv_mul_of_pos p q hc]
  have e1 : c * p - c * q * (p / q) = c * (p - q * (p / q)) := by ring
  rw [e1]
  have e2 : 2 * (c * (p - q * (p / q))) = c * (2 * (p - q * (p / q))) := by ring
  have h2 : c * (2 * (p - q * (p / q))) < c * q ↔ 2 * (p - q * (p / q)) < q :=
    mul_lt_mul_left hc
  have h3 : c * q < c * (2 * (p - q * (p / q))) ↔ q < 2 * (p - q * (p / q)) :=
    mul_lt_mul_left hc
  rw [e2]
  simp only [h2, h3]

theorem natLog2_div_bounds (a b : Nat) (hb : 0 < b) (hab : b ≤ a * 2 ^ 64) :
    b * 2 ^ natLog2 (a * 2 ^ 64 / b) ≤ a * 2 ^ 64 ∧
    a * 2 ^ 64 < b * 2 ^ (natLog2 (a * 2 ^ 64 / b) + 1) := by
  have ht : 0 < a * 2 ^ 64 / b := (Nat.le_div_iff_mul_le hb).2 (by omega)
  obtain ⟨l1, l2⟩ := natLog2_spec (a * 2 ^ 64 / b) ht
  constructor
  · calc b * 2 ^ natLog2 (a * 2 ^ 64 / b) ≤ b * (a * 2 ^ 64 / b) :=
        Nat.mul_le_mul_left b l1
    _ ≤ a * 2 ^ 64 := by
        rw [Nat.mul_comm]
        exact Nat.div_mul_le_self _ _
  · have hdm := Nat.div_add_mod (a * 2 ^ 64) b
    have hmod : a * 2 ^ 64 % b < b := Nat.mod_lt _ hb
    have h2 : b * (a * 2 ^ 64 / b + 1) ≤ b * 2 ^ (natLog2 (a * 2 ^ 64 / b) + 1) :=
      Nat.mul_le_mul_left b (by omega)
    have h3 : b * (a * 2 ^ 64 / b + 1) = b * (a * 2 ^ 64 / b) + b := by ring
    omega

theorem fl64Pos_eq (a b : Nat) (hE : natLog2 (a * 2 ^ 64 / b) ≤ 116) :
    fl64Pos a b =
      (rhe ((a : Int) * 2 ^ (116 - natLog2 (a * 2 ^ 64 / b))) b,
       (natLog2 (a * 2 ^ 64 / b) : Int) - 116) := by
  unfold fl64Pos
  dsimp only
  rw [if_pos (by omega : ((natLog2 (a * 2 ^ 64 / b) : Int) - 64) ≤ 52)]
  have ht : (52 - ((natLog2 (a * 2 ^ 64 / b) : Int) - 64)).toNat =
      116 - natLog2 (a * 2 ^ 64 / b) := by omega
  rw [ht]
  have he : (natLog2 (a * 2 ^ 64 / b) : Int) - 64 - 52 =
      (natLog2 (a * 2 ^ 64 / b) : Int) - 116 := by ring
  rw [he]

theorem fl64Pos_scale (c a b : Nat) (hc : 0 < c) (hb : 0 < b) :
    fl64Pos (c * a) (c * b) = fl64Pos a b := by
  unfold fl64Pos
  dsimp only
  have hdiv : c * a * 2 ^ 64 / (c * b) = a * 2 ^ 64 / b := by
    rw [show c * a * 2 ^ 64 = c * (a * 2 ^ 64) by ring, Nat.mul_div_mul_left _ _ hc]
  rw [hdiv]
  split_ifs with hE
  · have hcast1 : ((c * a : Nat) : Int) *
        2 ^ (52 - ((natLog2 (a * 2 ^ 64 / b) : Int) - 64)).toNat =
        (c : Int) * ((a : Int) *
          2 ^ (52 - ((natLog2 (a * 2 ^ 64 / b) : Int) - 64)).toNat) := by
      push_cast
      ring
    have hcast2 : ((c * b : Nat) : Int) = (c : Int) * (b : Int) := by push_cast; ring
    rw [hcast1, hcast2,
      rhe_mul_cancel (c : Int) _ _ (by exact_mod_cast hc) (by exact_mod_cast hb)]
  · have hcast1 : ((c * a : Nat) : Int) = (c : Int) * (a : Int) := by push_cast; ring
    have hcast2 : ((c * b : Nat) : Int) *
        2 ^ (((natLog2 (a * 2 ^ 64 / b) : Int) - 64) - 52).toNat =
        (c : Int) * ((b : Int) *
          2 ^ (((natLog2 (a * 2 ^ 64 / b) : Int) - 64) - 52).toNat) := by
      push_cast
      ring
    rw [hcast1, hcast2,
      rhe_mul_cancel (c : Int) _ _ (by exact_mod_cast hc)
        (by positivity)]

theorem flDiv1000_eq (m : Nat) (h1 : 0 < m) (h2 : m ≤ 10 ^ 12) :
    flDiv1000 m = fl64Pos m 1000 := by
  have hm40 : m < 2 ^ 40 := by
    have : (10:Nat) ^ 12 < 2 ^ 40 := by norm_num
    omega
  obtain ⟨lm1, lm2⟩ := natLog2_spec m h1
  have hL : natLog2 m ≤ 39 := by
    by_contra hc
    have hge : (2:Nat) ^ 40 ≤ 2 ^ natLog2 m := Nat.pow_le_pow_right (by norm_num) (by omega)
    omega
  have hE1 : natLog2 (m * 2 ^ 64 / 1) = natLog2 m + 64 := by
    rw [Nat.div_one]
    refine natLog2_unique _ _ (by positivity) ?_ ?_
    · rw [pow_add]
      exact Nat.mul_le_mul_right _ lm1
    · rw [show natLog2 m + 64 + 1 = (natLog2 m + 1) + 64 by ring, pow_add]
      exact (Nat.mul_lt_mul_right (by positivity)).2 lm2
  have hfl1 : fl64Pos m 1 = ((m : Int) * 2 ^ (52 - natLog2 m), (natLog2 m : Int) - 52) := by
    rw [fl64Pos_eq m 1 (by rw [hE1]; omega), hE1]
    simp only [Nat.cast_one]
    rw [rhe_one]
    have c1 : 116 - (natLog2 m + 64) = 52 - natLog2 m := by omega
    have c2 : ((natLog2 m + 64 : Nat) : Int) - 116 = (natLog2 m : Int) - 52 := by
      push_cast
      ring
    rw [c1, c2]
  unfold flDiv1000
  rw [if_neg (by omega : ¬ m = 0), hfl1]
  dsimp only
  rw [if_neg (by omega : ¬ (0:Int) ≤ (natLog2 m : Int) - 52)]
  have ht1 : ((m : Int) * 2 ^ (52 - natLog2 m)).toNat = m * 2 ^ (52 - natLog2 m) := by
    rw [show (m : Int) * 2 ^ (52 - natLog2 m) =
      ((m * 2 ^ (52 - natLog2 m) : Nat) : Int) from by push_cast; ring, Int.toNat_natCast]
  have ht2 : (-((natLog2 m : Int) - 52)).toNat = 52 - natLog2 m := by omega
  rw [ht1, ht2,
    show m * 2 ^ (52 - natLog2 m) = 2 ^ (52 - natLog2 m) * m from by ring,
    show 1000 * 2 ^ (52 - natLog2 m) = 2 ^ (52 - natLog2 m) * 1000 from by ring,
    fl64Pos_scale _ _ _ (by positivity) (by norm_num)]

theorem fl64Pos_1000_analysis (m : Nat) (h1 : 0 < m) (h2 : m ≤ 10 ^ 12) :
    ∃ (S : Int) (Z : Nat),
      fl64Pos m 1000 = (S, -(Z : Int)) ∧
      23 ≤ Z ∧ Z ≤ 62 ∧ 0 < S ∧
      -1000 ≤ 2 * (1000 * S - (m : Int) * 2 ^ Z) ∧
      2 * (1000 * S - (m : Int) * 2 ^ Z) ≤ 1000 ∧
      (10000 ≤ m → 10 * 2 ^ Z ≤ S) ∧
      (m < 10000 → S < 10 * 2 ^ Z) ∧
      (m < 10000 → 49 ≤ Z) ∧
      (m % 1000 = 500 → 1000 * S = (m : Int) * 2 ^ Z) := by
  have hab : 1000 ≤ m * 2 ^ 64 := by
    have h64 : (2:Nat) ^ 64 ≤ m * 2 ^ 64 := Nat.le_mul_of_pos_left _ h1
    have : (1000:Nat) ≤ 2 ^ 64 := by norm_num
    omega
  obtain ⟨b1, b2⟩ := natLog2_div_bounds m 1000 (by norm_num) hab
  have hup : m * 2 ^ 64 ≤ 10 ^ 12 * 2 ^ 64 := Nat.mul_le_mul_right _ h2
  have hL_up : natLog2 (m * 2 ^ 64 / 1000) ≤ 93 := by
    by_contra hc
    have hmono : (2:Nat) ^ 94 ≤ 2 ^ natLog2 (m * 2 ^ 64 / 1000) :=
      Nat.pow_le_pow_right (by norm_num) (by omega)
    have hmul : 1000 * 2 ^ 94 ≤ 1000 * 2 ^ natLog2 (m * 2 ^ 64 / 1000) :=
      Nat.mul_le_mul_left _ hmono
    have hcon : (10:Nat) ^ 12 * 2 ^ 64 < 1000 * 2 ^ 94 := by norm_num
    omega
  have hL_low : 54 ≤ natLog2 (m * 2 ^ 64 / 1000) := by
    by_contra hc
    have hmono : (2:Nat) ^ (natLog2 (m * 2 ^ 64 / 1000) + 1) ≤ 2 ^ 54 :=
      Nat.pow_le_pow_right (by norm_num) (by omega)
    have hmul : 1000 * 2 ^ (natLog2 (m * 2 ^ 64 / 1000) + 1) ≤ 1000 * 2 ^ 54 :=
      Nat.mul_le_mul_left _ hmono
    have hcon : (1000:Nat) * 2 ^ 54 < 2 ^ 64 := by norm_num
    have h64 : (2:Nat) ^ 64 ≤ m * 2 ^ 64 := Nat.le_mul_of_pos_left _ h1
    omega
  rw [fl64Pos_eq m 1000 (by omega)]
  refine ⟨rhe ((m : Int) * 2 ^ (116 - natLog2 (m * 2 ^ 64 / 1000))) 1000,
    116 - natLog2 (m * 2 ^ 64 / 1000), ?_, by omega, by omega, ?_, ?_, ?_, ?_, ?_, ?_, ?_⟩
  case _ =>
    have hcast : (natLog2 (m * 2 ^ 64 / 1000) : Int) - 116 =
        -((116 - natLog2 (m * 2 ^ 64 / 1000) : Nat) : Int) := by omega
    rw [hcast]
    norm_num
  all_goals
    set Z := 116 - natLog2 (m * 2 ^ 64 / 1000) with hZdef
    set S := rhe ((m : Int) * 2 ^ Z) 1000 with hSdef
  case _ => -- 0 < S
    obtain ⟨r1, r2⟩ := rhe_bound ((m : Int) * 2 ^ Z) 1000 (by norm_num)
    have hX1 : (2:Int) ^ Z ≤ (m : Int) * 2 ^ Z :=
      le_mul_of_one_le_left (by positivity) (by exact_mod_cast h1)
    have hP : (2:Int) ^ 23 ≤ 2 ^ Z := pow_le_pow_right₀ (by norm_num) (by omega)
    have hP23 : (2:Int) ^ 23 = 8388608 := by norm_num
    omega
  case _ => -- lower error bound
    exact (rhe_bound ((m : Int) * 2 ^ Z) 1000 (by norm_num)).1
  case _ => -- upper error bound
    exact (rhe_bound ((m : Int) * 2 ^ Z) 1000 (by norm_num)).2
  case _ => -- 10000 ≤ m → 10 * 2^Z ≤ S
    intro hm
    obtain ⟨r1, r2⟩ := rhe_bound ((m : Int) * 2 ^ Z) 1000 (by norm_num)
    have hX2 : (10000:Int) * 2 ^ Z ≤ (m : Int) * 2 ^ Z :=
      mul_le_mul_of_nonneg_right (by exact_mod_cast hm) (by positivity)
    have hP : (0:Int) < 2 ^ Z := by positivity
    omega
  case _ => -- m < 10000 → S < 10 * 2^Z
    intro hm
    obtain ⟨r1, r2⟩ := rhe_bound ((m : Int) * 2 ^ Z) 1000 (by norm_num)
    have hX3 : (m : Int) * 2 ^ Z ≤ 9999 * 2 ^ Z :=
      mul_le_mul_of_nonneg_right (by exact_mod_cast (by omega : m ≤ 9999)) (by positivity)
    have hP : (2:Int) ^ 23 ≤ 2 ^ Z := pow_le_pow_right₀ (by norm_num) (by omega)
    have hP23 : (2:Int) ^ 23 = 8388608 := by norm_num
    omega
  case _ => -- m < 10000 → 49 ≤ Z
    intro hm
    have hup2 : m * 2 ^ 64 ≤ 9999 * 2 ^ 64 := Nat.mul_le_mul_right _ (by omega)
    by_contra hc
    have hL68 : 68 ≤ natLog2 (m * 2 ^ 64 / 1000) := by omega
    have hmono : (2:Nat) ^ 68 ≤ 2 ^ natLog2 (m * 2 ^ 64 / 1000) :=
      Nat.pow_le_pow_right (by norm_num) hL68
    have hmul : 1000 * 2 ^ 68 ≤ 1000 * 2 ^ natLog2 (m * 2 ^ 64 / 1000) :=
      Nat.mul_le_mul_left _ hmono
    have hcon : (9999:Nat) * 2 ^ 64 < 1000 * 2 ^ 68 := by norm_num
    omega
  case _ => -- tie is exact
    intro h500
    have hZ1 : 1 ≤ Z := by omega
    have hzz : (2:Int) ^ Z = 2 * 2 ^ (Z - 1) := by
      rw [← pow_succ']
      congr 1
      omega
    have hmnat : m = 1000 * (m / 1000) + 500 := by omega
    have hsplit : (m : Int) * 2 ^ Z =
        1000 * (((m / 1000 : Nat) : Int) * 2 ^ Z + 2 ^ (Z - 1)) := by
      calc (m : Int) * 2 ^ Z = ((1000 * (m / 1000) + 500 : Nat) : Int) * 2 ^ Z := by
            rw [← hmnat]
      _ = 1000 * (((m / 1000 : Nat) : Int) * 2 ^ Z) + 500 * 2 ^ Z := by push_cast; ring
      _ = 1000 * (((m / 1000 : Nat) : Int) * 2 ^ Z + 2 ^ (Z - 1)) := by rw [hzz]; ring
    rw [hSdef, hsplit, rhe_exact _ _ (by norm_num)]

theorem dyGe_neg (S c : Int) (Z : Nat) (hZ : 0 < Z) :
    dyGe S (-(Z : Int)) c = decide (c * 2 ^ Z ≤ S) := by
  unfold dyGe
  rw [if_neg (by omega : ¬ (0:Int) ≤ -(Z : Int))]
  have ht : (-(-(Z : Int))).toNat = Z := by omega
  rw [ht]

theorem roundDy_neg (S : Int) (Z : Nat) : roundDy S (-(Z : Int)) = rhe S (2 ^ Z) := by
  unfold roundDy
  by_cases hZ0 : Z = 0
  · subst hZ0
    rw [if_pos (by omega : (0:Int) ≤ -(0:Nat))]
    simp [rhe_one]
  · rw [if_neg (by omega : ¬ (0:Int) ≤ -(Z : Int))]
    have ht : (-(-(Z : Int))).toNat = Z := by omega
    rw [ht]

theorem format_distance_large (m : Nat) (hm : 10000 ≤ m) (h2 : m ≤ 10 ^ 12) :
    format_distance_meters (m : Int) = s!"{rhe (m : Int) 1000} km" := by
  obtain ⟨S, Z, hfl, hZ23, hZ62, hS, r1, r2, hge, _hlt, _hz49, htie⟩ :=
    fl64Pos_1000_analysis m (by omega) h2
  have hP : (2:Int) ^ 23 ≤ 2 ^ Z := pow_le_pow_right₀ (by norm_num) (by omega)
  have hP23 : (2:Int) ^ 23 = 8388608 := by norm_num
  have hPpos : (0:Int) < 2 ^ Z := by positivity
  have key : rhe S (2 ^ Z) = rhe (m : Int) 1000 := by
    obtain ⟨a1, a2⟩ := rhe_bound S (2 ^ Z) hPpos
    obtain ⟨c1, c2⟩ := rhe_bound (m : Int) 1000 (by norm_num)
    by_cases h500 : m % 1000 = 500
    · -- exact tie on both sides, both round half to even
      have hX := htie h500
      have hZ1 : 1 ≤ Z := by omega
      have hzz : (2:Int) ^ Z = 2 * 2 ^ (Z - 1) := by
        rw [← pow_succ']
        congr 1
        omega
      have hmnat : m = 1000 * (m / 1000) + 500 := by omega
      have hmcast : (m : Int) = 1000 * ((m / 1000 : Nat) : Int) + 500 := by
        exact_mod_cast congrArg (fun x : Nat => (x : Int)) hmnat
      have hSval : S = 2 ^ Z * ((m / 1000 : Nat) : Int) + 2 ^ (Z - 1) := by
        have h1000 : (1000:Int) * S =
            1000 * (2 ^ Z * ((m / 1000 : Nat) : Int) + 2 ^ (Z - 1)) := by
          rw [hX, hmcast, hzz]
          ring
        omega
      rw [hSval, rhe_spec (2 ^ Z) _ _ hPpos (by positivity) (by
        rw [hzz]
        have : (0:Int) < 2 ^ (Z - 1) := by positivity
        omega)]
      rw [hmcast, rhe_spec 1000 _ 500 (by norm_num) (by norm_num) (by norm_num)]
      have he : 2 * (2:Int) ^ (Z - 1) = 2 ^ Z := hzz.symm
      rw [he]
      norm_num
    · -- no tie: both are the unique nearest integer
      have hm500 : (m : Int) % 1000 ≠ 500 := by omega
      set n1 := rhe S (2 ^ Z) with hn1
      set n2 := rhe (m : Int) 1000 with hn2
      have hbridge : 1000 * (2 ^ Z * n1) - 1000 * S * 1 =
          1000 * (2 ^ Z * n1 - S) := by ring
      have hbig : 2 * (1000 * (2 ^ Z * n1) - (m : Int) * 2 ^ Z) ≤ 1000 * 2 ^ Z + 1000 ∧
          -(1000 * 2 ^ Z + 1000) ≤ 2 * (1000 * (2 ^ Z * n1) - (m : Int) * 2 ^ Z) := by
        constructor <;> omega
      have hfact : 1000 * (2 ^ Z * n1) - (m : Int) * 2 ^ Z =
          2 ^ Z * (1000 * n1 - (m : Int)) := by ring
      have hD_up : 1000 * n1 - (m : Int) ≤ 500 := by
        by_contra hc
        have h501 : 501 ≤ 1000 * n1 - (m : Int) := by omega
        have hmul : (2:Int) ^ Z * 501 ≤ 2 ^ Z * (1000 * n1 - (m : Int)) :=
          mul_le_mul_of_nonneg_left h501 (le_of_lt hPpos)
        omega
      have hD_low : -500 ≤ 1000 * n1 - (m : Int) := by
        by_contra hc
        have h501 : 1000 * n1 - (m : Int) ≤ -501 := by omega
        have hmul : (2:Int) ^ Z * (1000 * n1 - (m : Int)) ≤ 2 ^ Z * (-501) :=
          mul_le_mul_of_nonneg_left h501 (le_of_lt hPpos)
        omega
      omega
  unfold format_distance_meters
  dsimp only
  rw [Int.natAbs_ofNat, flDiv1000_eq m (by omega) h2, hfl]
  dsimp only
  rw [if_neg (by omega : ¬ (m : Int) < 0)]
  rw [dyGe_neg S 10 Z (by omega), decide_eq_true (hge hm), if_pos rfl,
    roundDy_neg S Z, key]

theorem format_distance_small (m : Nat) (h1 : 0 < m) (hm : m < 10000) :
    ∃ d : Int, 0 ≤ d ∧
      format_distance_meters (m : Int) = s!"{d.natAbs / 10}.{d.natAbs % 10} km" ∧
      -50 ≤ 100 * d - (m : Int) ∧ 100 * d - (m : Int) ≤ 50 := by
  obtain ⟨S, Z, hfl, hZ23, hZ62, hS, r1, r2, _hge, hlt, hz49, _htie⟩ :=
    fl64Pos_1000_analysis m h1 (by omega)
  have hP : (2:Int) ^ 49 ≤ 2 ^ Z := pow_le_pow_right₀ (by norm_num) (hz49 hm)
  have hP49 : (2:Int) ^ 49 = 562949953421312 := by norm_num
  have hPpos : (0:Int) < 2 ^ Z := by positivity
  set d := rhe (10 * S) (2 ^ Z) with hd
  obtain ⟨a1, a2⟩ := rhe_bound (10 * S) (2 ^ Z) hPpos
  rw [← hd] at a1 a2
  have hd0 : 0 ≤ d := by
    by_contra hc
    have hneg : d ≤ -1 := by omega
    have hmul : (2:Int) ^ Z * d ≤ 2 ^ Z * (-1) :=
      mul_le_mul_of_nonneg_left hneg (le_of_lt hPpos)
    omega
  have hfact : 1000 * (2 ^ Z * d) - 10 * ((m : Int) * 2 ^ Z) =
      2 ^ Z * (1000 * d - 10 * (m : Int)) := by ring
  have hD_up : 1000 * d - 10 * (m : Int) ≤ 509 := by
    by_contra hc
    have h510 : 510 ≤ 1000 * d - 10 * (m : Int) := by omega
    have hmul : (2:Int) ^ Z * 510 ≤ 2 ^ Z * (1000 * d - 10 * (m : Int)) :=
      mul_le_mul_of_nonneg_left h510 (le_of_lt hPpos)
    omega
  have hD_low : -509 ≤ 1000 * d - 10 * (m : Int) := by
    by_contra hc
    have h510 : 1000 * d - 10 * (m : Int) ≤ -510 := by omega
    have hmul : (2:Int) ^ Z * (1000 * d - 10 * (m : Int)) ≤ 2 ^ Z * (-510) :=
      mul_le_mul_of_nonneg_left h510 (le_of_lt hPpos)
    omega
  refine ⟨d, hd0, ?_, by omega, by omega⟩
  unfold format_distance_meters
  dsimp only
  rw [Int.natAbs_ofNat, flDiv1000_eq m h1 (by omega), hfl]
  dsimp only
  rw [if_neg (by omega : ¬ (m : Int) < 0)]
  rw [dyGe_neg S 10 Z (by omega), decide_eq_false (by omega : ¬ 10 * 2 ^ Z ≤ S)]
  rw [if_neg (by simp : ¬ false = true)]
  rw [roundDy_neg (10 * S) Z]
  rw [if_neg (by omega : ¬ S < 0), ← hd, String.empty_append]

/-! ### Claim C6: duration formatting -/

/-- Claim C6: for every nonnegative integer number of seconds,
`format_duration_seconds` returns the hours part `"Hh"` (H = seconds div
3600) exactly when H is nonzero, followed by the minutes part `"Mm"`
(M = (seconds mod 3600) div 60) exactly when M is nonzero or H is zero,
joined by a single space; in particular 0 formats as `"0m"` and 3600 as
`"1h"`. -/
theorem C6_format_duration (s : Int) (hs : 0 ≤ s) :
    format_duration_seconds s =
      (if s / 3600 = 0 then s!"{s % 3600 / 60}m"
       else if s % 3600 / 60 = 0 then s!"{s / 3600}h"
       else s!"{s / 3600}h" ++ " " ++ s!"{s % 3600 / 60}m") ∧
    format_duration_seconds 0 = "0m" ∧ format_duration_seconds 3600 = "1h" := by
  refine ⟨?_, by decide, by decide⟩
  unfold format_duration_seconds
  dsimp only
  by_cases h1 : s / 3600 = 0
  · rw [if_pos h1, if_neg (not_not_intro h1), if_pos (Or.inr rfl)]
    rfl
  · rw [if_neg h1, if_pos h1]
    by_cases h2 : s % 3600 / 60 = 0
    · rw [if_pos h2, if_neg ?_]
      · rfl
      · intro hc
        rcases hc with hc | hc
        · exact hc h2
        · exact List.cons_ne_nil _ _ hc
    · rw [if_neg h2, if_pos (Or.inl h2)]
      rfl

/-- Witness for C6 at 7325 seconds (2h 2m). -/
theorem C6_format_duration_witness :
    format_duration_seconds 7325 =
      (if (7325 : Int) / 3600 = 0 then s!"{(7325 : Int) % 3600 / 60}m"
       else if (7325 : Int) % 3600 / 60 = 0 then s!"{(7325 : Int) / 3600}h"
       else s!"{(7325 : Int) / 3600}h" ++ " " ++ s!"{(7325 : Int) % 3600 / 60}m") :=
  (C6_format_duration 7325 (by norm_num)).1

/-! ### Claim C7: distance formatting -/

set_option maxRecDepth 1000000 in
/-- Claim C7 fails as stated: at 2251799813685249300 meters the kilometre
value is 2251799813685249.3, whose unique nearest integer is
2251799813685249 (the difference of 1000 times it from the meter count lies
strictly within (-500, 500)), yet the code prints `"2251799813685250 km"`:
`meters / 1000.0` rounds to the binary64 value 2251799813685249.5 and
`round` then rounds that half to even, away from the true nearest integer. -/
theorem C7_format_distance_counterexample :
    format_distance_meters 2251799813685249300 = "2251799813685250 km" ∧
    -500 < 1000 * 2251799813685249 - (2251799813685249300 : Int) ∧
    1000 * 2251799813685249 - (2251799813685249300 : Int) < 500 ∧
    format_distance_meters 2251799813685249300 ≠ "2251799813685249 km" := by
  refine ⟨by decide, by decide, by decide, by decide⟩

/-- Claim C7 amended: for nonnegative meter counts up to 10^12 (where double
precision still resolves the rounding), the formatter returns the kilometre
value rounded to the nearest integer (ties to even, which is `rhe m 1000`)
followed by `" km"` when meters/1000 is at least 10, and otherwise a value
with exactly one decimal place that is within half a tenth of the kilometre
value (`d` tenths with |100d - meters| ≤ 50) followed by `" km"`. For larger
meter counts the printed integer can differ from the nearest integer (see
the counterexample). -/
theorem C7_format_distance_amended (m : Nat) (hm : m ≤ 10 ^ 12) :
    (10000 ≤ m →
      format_distance_meters (m : Int) = s!"{rhe (m : Int) 1000} km" ∧
      -500 ≤ 1000 * rhe (m : Int) 1000 - (m : Int) ∧
      1000 * rhe (m : Int) 1000 - (m : Int) ≤ 500) ∧
    (m < 10000 →
      ∃ d : Int, 0 ≤ d ∧
        format_distance_meters (m : Int) = s!"{d.natAbs / 10}.{d.natAbs % 10} km" ∧
        -50 ≤ 100 * d - (m : Int) ∧ 100 * d - (m : Int) ≤ 50) := by
  constructor
  · intro h
    obtain ⟨hb1, hb2⟩ := rhe_bound (m : Int) 1000 (by norm_num)
    exact ⟨format_distance_large m h hm, by omega, by omega⟩
  · intro h
    by_cases h0 : m = 0
    · subst h0
      exact ⟨0, le_rfl, by decide, by norm_num, by norm_num⟩
    · exact format_distance_small m (by omega) h

/-- Witness for the amended C7 at 12345 meters (both hypotheses discharged
at a concrete input; the formatter prints `"12 km"`). -/
theorem C7_format_distance_witness :
    format_distance_meters ((12345 : Nat) : Int) =
      s!"{rhe ((12345 : Nat) : Int) 1000} km" ∧
    -500 ≤ 1000 * rhe ((12345 : Nat) : Int) 1000 - ((12345 : Nat) : Int) ∧
    1000 * rhe ((12345 : Nat) : Int) 1000 - ((12345 : Nat) : Int) ≤ 500 :=
  (C7_format_distance_amended 12345 (by norm_num)).1 (by norm_num)

/-! ### Helper lemmas: UTF-8 and percent-encoding -/

theorem char_valid_range (c : Char) :
    c.toNat < 55296 ∨ (57343 < c.toNat ∧ c.toNat < 1114112) := by
  have h := c.valid
  unfold UInt32.isValidChar at h
  exact h

theorem utf8Char_ascii (c : Char) (h : c.toNat < 128) : utf8Char c = [c.toNat] := by
  unfold utf8Char
  dsimp only
  rw [if_pos h]

theorem utf8Char_two (c : Char) (h1 : 128 ≤ c.toNat) (h2 : c.toNat < 2048) :
    utf8Char c = [192 + c.toNat / 64, 128 + c.toNat % 64] := by
  unfold utf8Char
  dsimp only
  rw [if_neg (by omega), if_pos h2]

theorem utf8Char_three (c : Char) (h1 : 2048 ≤ c.toNat) (h2 : c.toNat < 65536) :
    utf8Char c = [224 + c.toNat / 4096, 128 + c.toNat / 64 % 64, 128 + c.toNat % 64] := by
  unfold utf8Char
  dsimp only
  rw [if_neg (by omega), if_neg (by omega), if_pos h2]

theorem utf8Char_four (c : Char) (h1 : 65536 ≤ c.toNat) :
    utf8Char c = [240 + c.toNat / 262144, 128 + c.toNat / 4096 % 64,
      128 + c.toNat / 64 % 64, 128 + c.toNat % 64] := by
  unfold utf8Char
  dsimp only
  rw [if_neg (by omega), if_neg (by omega), if_neg (by omega)]

theorem contByte_true (b : Nat) (h1 : 128 ≤ b) (h2 : b < 192) : contByte b = true := by
  unfold contByte
  simp only [Bool.and_eq_true, decide_eq_true_eq]
  omega

theorem utf8Char_bytes_lt (c : Char) : ∀ b ∈ utf8Char c, b < 256 := by
  have hv := char_valid_range c
  intro b hb
  by_cases h1 : c.toNat < 128
  · rw [utf8Char_ascii c h1] at hb
    simp at hb
    omega
  · by_cases h2 : c.toNat < 2048
    · rw [utf8Char_two c (by omega) h2] at hb
      simp at hb
      rcases hb with hb | hb <;> omega
    · by_cases h3 : c.toNat < 65536
      · rw [utf8Char_three c (by omega) h3] at hb
        simp at hb
        rcases hb with hb | hb | hb <;> omega
      · rw [utf8Char_four c (by omega)] at hb
        simp at hb
        have hup : c.toNat < 1114112 := by omega
        rcases hb with hb | hb | hb | hb <;> omega

theorem utf8Char_nonascii_hi (c : Char) (h : 128 ≤ c.toNat) :
    ∀ b ∈ utf8Char c, 128 ≤ b := by
  intro b hb
  by_cases h2 : c.toNat < 2048
  · rw [utf8Char_two c h h2] at hb
    simp at hb
    rcases hb with hb | hb <;> omega
  · by_cases h3 : c.toNat < 65536
    · rw [utf8Char_three c (by omega) h3] at hb
      simp at hb
      rcases hb with hb | hb | hb <;> omega
    · rw [utf8Char_four c (by omega)] at hb
      simp at hb
      rcases hb with hb | hb | hb | hb <;> omega

theorem byteSafe_lt_128 (safe : List Char) (b : Nat) (h : byteSafe safe b = true) :
    b < 128 := by
  unfold byteSafe alwaysSafeByte at h
  simp only [Bool.or_eq_true, Bool.and_eq_true, decide_eq_true_eq, beq_iff_eq] at h
  rcases h with ((((((h | h) | h) | h) | h) | h) | ⟨h, _⟩) <;> omega

theorem hexVal_digit (n : Nat) (h : n < 16) : hexVal (hexDigitChar n) = some n := by
  have hfin : ∀ k : Fin 16, hexVal (hexDigitChar k.1) = some k.1 := by decide
  exact hfin ⟨n, h⟩

theorem percentDecode_pctHex (b : Nat) (hb : b < 256) (rest : List Char) :
    percentDecodeChars (pctHex b ++ rest) =
      (percentDecodeChars rest).map (fun r => b :: r) := by
  show percentDecodeChars ('%' :: hexDigitChar (b / 16) :: hexDigitChar (b % 16) :: rest) = _
  conv_lhs => unfold percentDecodeChars
  rw [if_pos rfl]
  dsimp only
  rw [hexVal_digit (b / 16) (by omega), hexVal_digit (b % 16) (by omega)]
  show (percentDecodeChars rest).map (fun r => (16 * (b / 16) + b % 16) :: r) = _
  rw [show 16 * (b / 16) + b % 16 = b from by omega]

theorem percentDecode_plainChar (c : Char) (hne : ¬ c = '%') (rest : List Char) :
    percentDecodeChars (c :: rest) =
      (percentDecodeChars rest).map (fun r => utf8Char c ++ r) := by
  conv_lhs => unfold percentDecodeChars
  rw [if_neg hne]

theorem percentDecode_escapes (bs : List Nat) (hb : ∀ b ∈ bs, b < 256) (rest : List Char) :
    percentDecodeChars (bs.flatMap pctHex ++ rest) =
      (percentDecodeChars rest).map (fun r => bs ++ r) := by
  induction bs with
  | nil => simp
  | cons b t ih =>
    simp only [List.flatMap_cons, List.append_assoc]
    rw [percentDecode_pctHex b (hb b (by simp)) _, ih (fun x hx => hb x (by simp [hx]))]
    rw [Option.map_map]
    rfl

theorem utf8DecodeOne_char (c : Char) (bs : List Nat) :
    utf8DecodeOne (utf8Char c ++ bs) = some (c.toNat, bs) := by
  have hv := char_valid_range c
  by_cases h1 : c.toNat < 128
  · rw [utf8Char_ascii c h1]
    show utf8DecodeOne (c.toNat :: bs) = _
    conv_lhs => unfold utf8DecodeOne
    dsimp only
    rw [if_pos h1]
  · by_cases h2 : c.toNat < 2048
    · rw [utf8Char_two c (by omega) h2]
      show utf8DecodeOne ((192 + c.toNat / 64) :: (128 + c.toNat % 64) :: bs) = _
      conv_lhs => unfold utf8DecodeOne
      dsimp only
      rw [if_neg (by omega), if_neg (by omega), if_pos (by omega)]
      rw [if_pos ⟨contByte_true _ (by omega) (by omega), by omega⟩]
      rw [show (192 + c.toNat / 64 - 192) * 64 + (128 + c.toNat % 64 - 128) = c.toNat
        from by omega]
    · by_cases h3 : c.toNat < 65536
      · rw [utf8Char_three c (by omega) h3]
        show utf8DecodeOne ((224 + c.toNat / 4096) :: (128 + c.toNat / 64 % 64) ::
          (128 + c.toNat % 64) :: bs) = _
        conv_lhs => unfold utf8DecodeOne
        dsimp only
        rw [if_neg (by omega), if_neg (by omega), if_neg (by omega), if_pos (by omega)]
        rw [if_pos ⟨contByte_true _ (by omega) (by omega),
          contByte_true _ (by omega) (by omega), by omega, by omega⟩]
        rw [show (224 + c.toNat / 4096 - 224) * 4096 + (128 + c.toNat / 64 % 64 - 128) * 64 +
          (128 + c.toNat % 64 - 128) = c.toNat from by omega]
      · rw [utf8Char_four c (by omega)]
        have hup : c.toNat < 1114112 := by omega
        show utf8DecodeOne ((240 + c.toNat / 262144) :: (128 + c.toNat / 4096 % 64) ::
          (128 + c.toNat / 64 % 64) :: (128 + c.toNat % 64) :: bs) = _
        conv_lhs => unfold utf8DecodeOne
        dsimp only
        rw [if_neg (by omega), if_neg (by omega), if_neg (by omega), if_neg (by omega),
          if_pos (by omega)]
        rw [if_pos ⟨contByte_true _ (by omega) (by omega),
          contByte_true _ (by omega) (by omega), contByte_true _ (by omega) (by omega),
          by omega, by omega⟩]
        rw [show (240 + c.toNat / 262144 - 240) * 262144 + (128 + c.toNat / 4096 % 64 - 128) *
          4096 + (128 + c.toNat / 64 % 64 - 128) * 64 + (128 + c.toNat % 64 - 128) = c.toNat
          from by omega]

theorem utf8Char_ne_nil (c : Char) : utf8Char c ≠ [] := by
  by_cases h1 : c.toNat < 128
  · rw [utf8Char_ascii c h1]
    simp
  · by_cases h2 : c.toNat < 2048
    · rw [utf8Char_two c (by omega) h2]
      simp
    · by_cases h3 : c.toNat < 65536
      · rw [utf8Char_three c (by omega) h3]
        simp
      · rw [utf8Char_four c (by omega)]
        simp

theorem utf8DecodeF_flatMap : ∀ (cs : List Char) (f : Nat),
    (cs.flatMap utf8Char).length ≤ f → utf8DecodeF f (cs.flatMap utf8Char) = some cs := by
  intro cs
  induction cs with
  | nil =>
    intro f _
    cases f <;> rfl
  | cons c t ih =>
    intro f hf
    obtain ⟨b0, tl, hshape⟩ : ∃ b0 tl, utf8Char c ++ t.flatMap utf8Char = b0 :: tl := by
      cases hcc : utf8Char c with
      | nil => exact absurd hcc (utf8Char_ne_nil c)
      | cons x xs => exact ⟨x, xs ++ t.flatMap utf8Char, by simp [hcc]⟩
    have hlen : 1 ≤ (utf8Char c).length := by
      cases hcc : utf8Char c with
      | nil => exact absurd hcc (utf8Char_ne_nil c)
      | cons x xs => simp
    have hflat : ((c :: t).flatMap utf8Char) = utf8Char c ++ t.flatMap utf8Char := by
      simp [List.flatMap_cons]
    rw [hflat] at hf ⊢
    have hf1 : ∃ f', f = f' + 1 := by
      rcases f with _ | f'
      · exfalso
        rw [hshape] at hf
        simp at hf
      · exact ⟨f', rfl⟩
    obtain ⟨f', rfl⟩ := hf1
    rw [hshape]
    show (match utf8DecodeOne (b0 :: tl) with
      | some nt => (utf8DecodeF f' nt.2).map (fun r => Char.ofNat nt.1 :: r)
      | none => none) = some (c :: t)
    rw [← hshape, utf8DecodeOne_char c (t.flatMap utf8Char)]
    dsimp only
    have hlen2 : (t.flatMap utf8Char).length ≤ f' := by
      rw [List.length_append] at hf
      omega
    rw [ih f' hlen2, Char.ofNat_toNat]
    rfl

theorem utf8Decode_flatMap (cs : List Char) :
    utf8Decode (cs.flatMap utf8Char) = some cs :=
  utf8DecodeF_flatMap cs _ le_rfl

theorem flatMap_pctHex_of_unsafe (safe : List Char) :
    ∀ (bs : List Nat), (∀ b ∈ bs, byteSafe safe b = false) →
      bs.flatMap (fun b => if byteSafe safe b then [Char.ofNat b] else pctHex b) =
        bs.flatMap pctHex := by
  intro bs
  induction bs with
  | nil => intro _; rfl
  | cons b t ih =>
    intro h
    rw [List.flatMap_cons, List.flatMap_cons, if_neg (by rw [h b (by simp)]; simp),
      ih (fun x hx => h x (by simp [hx]))]

theorem encChar_bytes (c : Char) :
    (utf8Char c).flatMap
        (fun b => if byteSafe defaultSafe b then [Char.ofNat b] else pctHex b) =
      encChar c := by
  unfold encChar
  by_cases hs : charSafe c
  · have hlt : c.toNat < 128 := by
      unfold charSafe at hs
      simp only [Bool.and_eq_true, decide_eq_true_eq] at hs
      exact hs.1
    have hbs : byteSafe defaultSafe c.toNat = true := by
      unfold charSafe at hs
      simp only [Bool.and_eq_true, decide_eq_true_eq] at hs
      exact hs.2
    rw [if_pos hs, utf8Char_ascii c hlt]
    show (if byteSafe defaultSafe c.toNat then [Char.ofNat c.toNat] else pctHex c.toNat) ++
      [] = [c]
    rw [if_pos hbs, Char.ofNat_toNat]
    rfl
  · rw [if_neg hs]
    by_cases hlt : c.toNat < 128
    · have hbs : byteSafe defaultSafe c.toNat = false := by
        by_contra hb
        exact hs (by
          unfold charSafe
          simp only [Bool.and_eq_true, decide_eq_true_eq]
          exact ⟨hlt, by revert hb; cases byteSafe defaultSafe c.toNat <;> simp⟩)
      apply flatMap_pctHex_of_unsafe
      intro b hb
      rw [utf8Char_ascii c hlt] at hb
      simp at hb
      rw [hb, hbs]
    · apply flatMap_pctHex_of_unsafe
      intro b hb
      have hhi := utf8Char_nonascii_hi c (by omega) b hb
      by_contra hbs
      have : byteSafe defaultSafe b = true := by
        revert hbs
        cases byteSafe defaultSafe b <;> simp
      exact absurd (byteSafe_lt_128 defaultSafe b this) (by omega)

theorem quote_eq_flatMap (v : String) :
    encode_param v = String.mk (v.data.flatMap encChar) := by
  unfold encode_param quote utf8Str
  congr 1
  induction v.data with
  | nil => rfl
  | cons c t ih =>
    rw [List.flatMap_cons, List.flatMap_cons, List.flatMap_append, ih, encChar_bytes c]

theorem percentDecode_encChar : ∀ (cs : List Char),
    percentDecodeChars (cs.flatMap encChar) = some (cs.flatMap utf8Char) := by
  intro cs
  induction cs with
  | nil => rfl
  | cons c t ih =>
    rw [List.flatMap_cons, List.flatMap_cons]
    by_cases hs : charSafe c
    · have hne : ¬ c = '%' := by
        intro he
        rw [he] at hs
        exact absurd hs (by decide)
      rw [show encChar c = [c] from by unfold encChar; rw [if_pos hs]]
      show percentDecodeChars (c :: t.flatMap encChar) = _
      rw [percentDecode_plainChar c hne, ih]
      rfl
    · rw [show encChar c = (utf8Char c).flatMap pctHex from by
        unfold encChar; rw [if_neg hs]]
      rw [percentDecode_escapes (utf8Char c) (utf8Char_bytes_lt c), ih]
      rfl

/-! ### Claim C5: URL-encoding round trip -/

/-- Claim C5: URL-encoding is correct in the round-trip sense: for every
string v, standard percent-decoding (percent-unescaping to bytes followed by
UTF-8 decoding) applied to `_encode_param(v)` yields v again; the encoding is
character-by-character, a character in the unreserved or extra safe set
`-._~|,:` passes through unescaped (in particular `|`, `,`, `:` do), and
every other character appears as the `%XX` escapes of its UTF-8 bytes. -/
theorem C5_encode_param_roundtrip :
    (∀ v : String, urlDecode (encode_param v) = some v ∧
      encode_param v = String.mk (v.data.flatMap encChar)) ∧
    (∀ c : Char, (charSafe c = true → encChar c = [c]) ∧
      (charSafe c = false → encChar c = (utf8Char c).flatMap pctHex)) ∧
    encChar '|' = ['|'] ∧ encChar ',' = [','] ∧ encChar ':' = [':'] := by
  refine ⟨fun v => ⟨?_, quote_eq_flatMap v⟩, fun c => ⟨?_, ?_⟩, by decide, by decide,
    by decide⟩
  · unfold urlDecode
    rw [quote_eq_flatMap v]
    show (percentDecodeChars (v.data.flatMap encChar)).bind _ = some v
    rw [percentDecode_encChar v.data]
    show (utf8Decode (v.data.flatMap utf8Char)).map String.mk = some v
    rw [utf8Decode_flatMap v.data]
    rfl
  · intro h
    unfold encChar
    rw [if_pos h]
  · intro h
    unfold encChar
    rw [if_neg (by rw [h]; simp)]

/-- Witness for C5: the round trip on a place name containing spaces, commas
and a non-ASCII character, and the escaping of the unsafe character `' '`. -/
theorem C5_encode_param_roundtrip_witness :
    urlDecode (encode_param "San Ginés de Arlés Church, Madrid, Spain") =
      some "San Ginés de Arlés Church, Madrid, Spain" ∧
    encChar ' ' = (utf8Char ' ').flatMap pctHex :=
  ⟨(C5_encode_param_roundtrip.1 "San Ginés de Arlés Church, Madrid, Spain").1,
   (C5_encode_param_roundtrip.2.1 ' ').2 (by decide)⟩

theorem ebind_ok {α β : Type} (a : α) (f : α → Except PyErr β) :
    (Except.ok a : Except PyErr α) >>= f = f a := rfl

theorem ebind_err {α β : Type} (e : PyErr) (f : α → Except PyErr β) :
    (Except.error e : Except PyErr α) >>= f = Except.error e := rfl

theorem share_link_assemble (origin destination : String) (wl : List String) :
    "https://www.google.com/maps/dir/?" ++
      join_sep "&" (([("api", "1"), ("origin", origin), ("destination", destination),
        ("travelmode", "driving")] ++
          (if wl = [] then [] else [("waypoints", join_sep "|" wl)])).map
        (fun kv => kv.1 ++ "=" ++ encode_param kv.2)) =
      spec_share_url origin destination wl := by
  unfold spec_share_url
  by_cases hwl : wl = []
  · rw [if_pos hwl, if_pos hwl]
    simp only [List.append_nil, List.map_cons, List.map_nil]
    rw [show encode_param "1" = "1" from by decide,
      show encode_param "driving" = "driving" from by decide]
    simp only [join_sep]
    apply String.ext
    simp [String.data_append, List.append_assoc]
  · rw [if_neg hwl, if_neg hwl]
    simp only [List.cons_append, List.nil_append, List.map_cons, List.map_nil]
    rw [show encode_param "1" = "1" from by decide,
      show encode_param "driving" = "driving" from by decide]
    simp only [join_sep]
    apply String.ext
    simp [String.data_append, List.append_assoc]

set_option maxHeartbeats 1000000 in
theorem build_share_link_some (places : List String) (ord : List Int)
    (h2 : 2 ≤ places.length)
    (hord : ∀ i ∈ ord, 0 ≤ i ∧ i.toNat < (midSlice places).length) :
    build_gmaps_share_link places (some ord) =
      .ok (spec_share_url (places.getD 0 "") (places.getD (places.length - 1) "")
        (ord.map (fun i => (midSlice places).getD i.toNat ""))) := by
  unfold build_gmaps_share_link
  dsimp only
  rw [pyIndex_zero places "" (by omega), pyIndex_last places "" (by omega),
    mapM_pyIndex (midSlice places) ord "" hord]
  simp only [ebind_ok]
  rw [share_link_assemble]
  rfl

set_option maxHeartbeats 1000000 in
theorem build_share_link_none (places : List String) (h2 : 2 ≤ places.length) :
    build_gmaps_share_link places none =
      .ok (spec_share_url (places.getD 0 "") (places.getD (places.length - 1) "")
        (midSlice places)) := by
  unfold build_gmaps_share_link
  dsimp only
  rw [pyIndex_zero places "" (by omega), pyIndex_last places "" (by omega)]
  simp only [ebind_ok, pure_bind]
  rw [share_link_assemble]
  rfl

/-! ### Claim C3: share-link construction -/

/-- Claim C3: for every list of places with at least two entries and every
valid index order over its middle elements, `build_gmaps_share_link` returns
a URL whose origin parameter is the first place, whose destination parameter
is the last place, whose waypoints parameter is the middle places joined by
`|` (reordered by the given order when one is provided, in original order
otherwise — and present exactly when there are middle places), and whose
travelmode is driving (`spec_share_url` spells that shape out). -/
theorem C3_build_gmaps_share_link (places : List String) (ord : List Int)
    (h2 : 2 ≤ places.length)
    (hord : ∀ i ∈ ord, 0 ≤ i ∧ i.toNat < (midSlice places).length) :
    build_gmaps_share_link places (some ord) =
      .ok (spec_share_url (places.getD 0 "") (places.getD (places.length - 1) "")
        (ord.map (fun i => (midSlice places).getD i.toNat ""))) ∧
    build_gmaps_share_link places none =
      .ok (spec_share_url (places.getD 0 "") (places.getD (places.length - 1) "")
        (midSlice places)) :=
  ⟨build_share_link_some places ord h2 hord, build_share_link_none places h2⟩

/-- Witness for C3 on the script's own places with the order [2, 0, 1]. -/
theorem C3_build_gmaps_share_link_witness :
    build_gmaps_share_link PLACES (some [2, 0, 1]) =
      .ok (spec_share_url (PLACES.getD 0 "") (PLACES.getD (PLACES.length - 1) "")
        (([2, 0, 1] : List Int).map (fun i => (midSlice PLACES).getD i.toNat ""))) ∧
    build_gmaps_share_link PLACES none =
      .ok (spec_share_url (PLACES.getD 0 "") (PLACES.getD (PLACES.length - 1) "")
        (midSlice PLACES)) :=
  C3_build_gmaps_share_link PLACES [2, 0, 1] (by decide) (by decide)

/-! ### Helper lemmas: the run of `main` -/

theorem pyIndex_PLACES_zero :
    pyIndex PLACES 0 =
      .ok "Royal Monastery of El Escorial, San Lorenzo de El Escorial, Spain" := rfl

theorem pyIndex_PLACES_last :
    pyIndex PLACES (-1) = .ok "Toledo Cathedral, Toledo, Spain" := rfl

theorem main_body_err (data : JValue) (e : PyErr)
    (hcd : call_directions PLACES data = .error e) :
    main_body data = (stops_header, some e) := by
  unfold main_body
  rw [hcd]

theorem main_body_ok (data : JValue) (info : DirectionsResult)
    (ordmid : List Int × List String) (tm ts : Int) (link : String)
    (hcd : call_directions PLACES data = .ok info)
    (how : optimized_waypoints (midSlice PLACES) info.waypoint_order = .ok ordmid)
    (ht : compute_totals info.legs = .ok (tm, ts))
    (hl : build_gmaps_share_link PLACES (some ordmid.1) = .ok link) :
    main_body data = (stops_header ++
      itinerary_lines
        ("Royal Monastery of El Escorial, San Lorenzo de El Escorial, Spain" ::
          ordmid.2 ++ ["Toledo Cathedral, Toledo, Spain"]) ++
      [s!"\nTotal Distance: {format_distance_meters tm}",
       s!"Total Duration: {format_duration_seconds ts}",
       "\nOpen this link for directions (optimized order):", link], none) := by
  unfold main_body
  rw [hcd]
  dsimp only
  rw [how]
  dsimp only
  rw [pyIndex_PLACES_zero, pyIndex_PLACES_last]
  dsimp only
  rw [ht]
  dsimp only
  rw [hl]
  dsimp only
  simp [List.append_assoc]

theorem run_nokey (key : Option String) (df : Except String JValue)
    (ms : Except String Unit) (hk : key.getD "" = "") :
    run key df ms = ⟨stops_header ++
      ["No GOOGLE_MAPS_API_KEY found. Skipping Directions API call.",
       "Open this link for directions (original order):",
       spec_share_url (PLACES.getD 0 "") (PLACES.getD (PLACES.length - 1) "")
         (midSlice PLACES),
       "\nTo compute optimized route and download a static map image, set GOOGLE_MAPS_API_KEY and re-run."],
      0, none⟩ := by
  unfold run
  rw [if_pos hk, build_share_link_none PLACES (by decide)]

theorem run_dferr (key : Option String) (m : String) (ms : Except String Unit)
    (hk : ¬ key.getD "" = "") :
    run key (.error m) ms = ⟨stops_header, 1, some (.urlError m)⟩ := by
  unfold run
  rw [if_neg hk]

theorem run_bodyerr (key : Option String) (data : JValue) (ms : Except String Unit)
    (out : List String) (e : PyErr) (hk : ¬ key.getD "" = "")
    (hmb : main_body data = (out, some e)) :
    run key (.ok data) ms = ⟨out, 1, some e⟩ := by
  unfold run
  rw [if_neg hk]
  dsimp only
  rw [hmb]

theorem run_bodyok (key : Option String) (data : JValue) (out : List String)
    (hk : ¬ key.getD "" = "") (hmb : main_body data = (out, none)) :
    run key (.ok data) (.ok ()) =
      ⟨out ++ ["\nStatic route map saved to: spain_route.png"], 2, none⟩ ∧
    ∀ e, run key (.ok data) (.error e) =
      ⟨out ++ [s!"\nFailed to save static map image: {e}"], 2, none⟩ := by
  constructor
  · unfold run
    rw [if_neg hk]
    dsimp only
    rw [hmb]
  · intro e
    unfold run
    rw [if_neg hk]
    dsimp only
    rw [hmb]

/-! ### Claim C2: the try/except around the static-map save -/

/-- Claim C2: for every exception raised while saving the static map image,
`main` catches it and logs a failure message, and the run still completes:
the printed itinerary, total distance, total duration, and share link (all
the output before the save step) are unaffected and no exception escapes;
when the save step is never reached the fetch outcome cannot matter at all;
and there is no other failure recovery: a failure of the Directions fetch
itself escapes as an uncaught exception. -/
theorem C2_static_map_catch (key : Option String) (df : Except String JValue)
    (hk : ¬ key.getD "" = "") :
    ((run key df (.ok ())).netCalls = 2 →
      ∃ out, run key df (.ok ()) =
          ⟨out ++ ["\nStatic route map saved to: spain_route.png"], 2, none⟩ ∧
        ∀ e, run key df (.error e) =
          ⟨out ++ [s!"\nFailed to save static map image: {e}"], 2, none⟩) ∧
    ((run key df (.ok ())).netCalls ≠ 2 →
      ∀ e, run key df (.error e) = run key df (.ok ())) ∧
    (∀ m, (run key (.error m) (.ok ())).uncaught = some (.urlError m)) := by
  refine ⟨?_, ?_, fun m => by rw [run_dferr key m _ hk]⟩
  · intro h2
    cases df with
    | error m =>
      rw [run_dferr key m _ hk] at h2
      simp at h2
    | ok data =>
      rcases hmb : main_body data with ⟨out, oe⟩
      cases oe with
      | some e =>
        rw [run_bodyerr key data _ out e hk hmb] at h2
        simp at h2
      | none =>
        obtain ⟨hok, herr⟩ := run_bodyok key data out hk hmb
        exact ⟨out, hok, herr⟩
  · intro h2 e
    cases df with
    | error m => rw [run_dferr key m _ hk, run_dferr key m _ hk]
    | ok data =>
      rcases hmb : main_body data with ⟨out, oe⟩
      cases oe with
      | some e2 =>
        rw [run_bodyerr key data _ out e2 hk hmb, run_bodyerr key data _ out e2 hk hmb]
      | none =>
        exfalso
        obtain ⟨hok, _⟩ := run_bodyok key data out hk hmb
        rw [hok] at h2
        simp at h2

/-- Witness for C2: a failing Directions fetch escapes uncaught (no recovery
outside the save step), with the truthy-key hypothesis discharged at a
concrete key. -/
theorem C2_static_map_catch_witness :
    (run (some "K") (.error "boom") (.ok ())).uncaught = some (.urlError "boom") :=
  (C2_static_map_catch (some "K") (.error "unused") (by decide)).2.2 "boom"

/-! ### Claim C4: network-call budget -/

/-- Claim C4: every run performs at most two network calls (one GET inside
`call_directions`, one inside `save_static_map`); when `GOOGLE_MAPS_API_KEY`
is unset the run performs zero network calls and exits normally after
printing the original-order share link (followed only by the fixed hint
line). -/
theorem C4_network_calls (key : Option String) (df : Except String JValue)
    (ms : Except String Unit) :
    (run key df ms).netCalls ≤ 2 ∧
    (key = none →
      run key df ms = ⟨stops_header ++
        ["No GOOGLE_MAPS_API_KEY found. Skipping Directions API call.",
         "Open this link for directions (original order):",
         spec_share_url (PLACES.getD 0 "") (PLACES.getD (PLACES.length - 1) "")
           (midSlice PLACES),
         "\nTo compute optimized route and download a static map image, set GOOGLE_MAPS_API_KEY and re-run."],
        0, none⟩) := by
  constructor
  · by_cases hk : key.getD "" = ""
    · rw [run_nokey key df ms hk]
      simp
    · cases df with
      | error m =>
        rw [run_dferr key m ms hk]
        simp
      | ok data =>
        rcases hmb : main_body data with ⟨out, oe⟩
        cases oe with
        | some e =>
          rw [run_bodyerr key data ms out e hk hmb]
          simp
        | none =>
          obtain ⟨hok, herr⟩ := run_bodyok key data out hk hmb
          cases ms with
          | ok u =>
            cases u
            rw [hok]
          | error e =>
            rw [herr e]
  · intro hnone
    subst hnone
    exact run_nokey none df ms rfl

/-- Witness for C4: an unset key yields the zero-network-call run ending in
the original-order share link. -/
theorem C4_network_calls_witness :
    run none (.ok JValue.null) (.ok ()) = ⟨stops_header ++
      ["No GOOGLE_MAPS_API_KEY found. Skipping Directions API call.",
       "Open this link for directions (original order):",
       spec_share_url (PLACES.getD 0 "") (PLACES.getD (PLACES.length - 1) "")
         (midSlice PLACES),
       "\nTo compute optimized route and download a static map image, set GOOGLE_MAPS_API_KEY and re-run."],
      0, none⟩ :=
  (C4_network_calls none (.ok JValue.null) (.ok ())).2 rfl

/-! ### Claim C1: the status check in `call_directions` -/

theorem call_directions_raises (places : List String) (kvs : List (String × JValue))
    (hshape : isOkStatus (status_of (.obj kvs)) = true → routes_ok (.obj kvs) = true) :
    (errored (call_directions places (.obj kvs)) = true ↔
      isOkStatus (status_of (.obj kvs)) = false) ∧
    (isOkStatus (status_of (.obj kvs)) = false →
      call_directions places (.obj kvs) = .error (.runtimeError
        ("Directions API error: " ++ pyStr (status_of (.obj kvs)) ++ " - " ++
          pyStr (errmsg_of (.obj kvs))))) := by
  have hst : dictGet (JValue.obj kvs) "status" JValue.null =
      .ok (status_of (.obj kvs)) := rfl
  by_cases hok : isOkStatus (status_of (.obj kvs)) = true
  · have hro := hshape hok
    have hcd : errored (call_directions places (JValue.obj kvs)) = false := by
      rcases hrt : alookup kvs "routes" with _ | v
      · exfalso
        simp [routes_ok, hrt] at hro
      · cases v with
        | arr xs =>
          cases xs with
          | nil =>
            exfalso
            simp [routes_ok, hrt] at hro
          | cons r rest =>
            cases r with
            | obj rkvs =>
              have hri : dictIndex (JValue.obj kvs) "routes" =
                  .ok (JValue.arr (JValue.obj rkvs :: rest)) := by
                unfold dictIndex
                dsimp only
                rw [hrt]
              rcases hop : alookup rkvs "overview_polyline" with _ | w
              · unfold call_directions
                rw [hst]
                simp only [ebind_ok]
                rw [if_pos hok, hri]
                simp only [ebind_ok]
                rw [show seqIndex (JValue.arr (JValue.obj rkvs :: rest)) 0 =
                  .ok (JValue.obj rkvs) from rfl]
                simp only [ebind_ok]
                rw [show dictGet (JValue.obj rkvs) "overview_polyline" (JValue.obj []) =
                  .ok ((alookup rkvs "overview_polyline").getD (JValue.obj [])) from rfl,
                  hop]
                rfl
              · cases w with
                | obj pkvs =>
                  unfold call_directions
                  rw [hst]
                  simp only [ebind_ok]
                  rw [if_pos hok, hri]
                  simp only [ebind_ok]
                  rw [show seqIndex (JValue.arr (JValue.obj rkvs :: rest)) 0 =
                    .ok (JValue.obj rkvs) from rfl]
                  simp only [ebind_ok]
                  rw [show dictGet (JValue.obj rkvs) "overview_polyline" (JValue.obj []) =
                    .ok ((alookup rkvs "overview_polyline").getD (JValue.obj [])) from rfl,
                    hop]
                  rfl
                | null => exfalso; simp [routes_ok, hrt, hop] at hro
                | bool b => exfalso; simp [routes_ok, hrt, hop] at hro
                | int n => exfalso; simp [routes_ok, hrt, hop] at hro
                | str st => exfalso; simp [routes_ok, hrt, hop] at hro
                | arr ys => exfalso; simp [routes_ok, hrt, hop] at hro
            | null => exfalso; simp [routes_ok, hrt] at hro
            | bool b => exfalso; simp [routes_ok, hrt] at hro
            | int n => exfalso; simp [routes_ok, hrt] at hro
            | str st => exfalso; simp [routes_ok, hrt] at hro
            | arr ys => exfalso; simp [routes_ok, hrt] at hro
        | null => exfalso; simp [routes_ok, hrt] at hro
        | bool b => exfalso; simp [routes_ok, hrt] at hro
        | int n => exfalso; simp [routes_ok, hrt] at hro
        | str st => exfalso; simp [routes_ok, hrt] at hro
        | obj os => exfalso; simp [routes_ok, hrt] at hro
    constructor
    · rw [hcd]
      simp [hok]
    · intro hfalse
      rw [hok] at hfalse
      exact absurd hfalse (by simp)
  · have herr : call_directions places (JValue.obj kvs) = .error (.runtimeError
        ("Directions API error: " ++ pyStr (status_of (.obj kvs)) ++ " - " ++
          pyStr (errmsg_of (.obj kvs)))) := by
      unfold call_directions
      rw [hst]
      simp only [ebind_ok]
      rw [if_neg hok]
      rw [show dictGet (JValue.obj kvs) "error_message" (JValue.str "") =
        .ok (errmsg_of (.obj kvs)) from rfl]
      simp only [ebind_ok]
      rfl
    constructor
    · rw [herr]
      simp [errored]
      exact Bool.not_eq_true _ ▸ (by revert hok; cases isOkStatus (status_of (.obj kvs)) <;> simp)
    · intro _
      exact herr

/-- Claim C1 (amended): for an object response whose OK case has the routes
shape the code then dereferences (a nonempty `routes` list headed by an
object with well-typed `overview_polyline`), `call_directions` raises
exactly when the status value (`None` when the field is missing) differs
from `"OK"`; when it raises that way it raises the `RuntimeError` whose
message carries the status and any `error_message`; and whenever
`call_directions` raises, the run terminates with that exception after
printing only the stops header: no itinerary, no totals, no optimized share
link. As stated the claim is refuted by `C1_call_directions_counterexample`:
an OK response without `routes` also raises (a `KeyError`). -/
theorem C1_call_directions_amended (data : JValue) (kvs : List (String × JValue))
    (hd : data = .obj kvs)
    (hshape : isOkStatus (status_of data) = true → routes_ok data = true) :
    (errored (call_directions PLACES data) = true ↔
      isOkStatus (status_of data) = false) ∧
    (isOkStatus (status_of data) = false →
      call_directions PLACES data = .error (.runtimeError
        ("Directions API error: " ++ pyStr (status_of data) ++ " - " ++
          pyStr (errmsg_of data)))) ∧
    (∀ key ms e, ¬ key.getD "" = "" → call_directions PLACES data = .error e →
      run key (.ok data) ms = ⟨stops_header, 1, some e⟩) := by
  subst hd
  obtain ⟨h1, h2⟩ := call_directions_raises PLACES kvs hshape
  exact ⟨h1, h2, fun key ms e hk hcd =>
    run_bodyerr key _ ms _ e hk (main_body_err _ e hcd)⟩

/-- Claim C1 fails as stated: the response `{"status": "OK"}` has status
`"OK"`, yet `call_directions` still raises (a `KeyError` on the missing
`routes` field), so "raises exactly when status differs from OK" is false. -/
theorem C1_call_directions_counterexample :
    isOkStatus (status_of (.obj [("status", .str "OK")])) = true ∧
    call_directions PLACES (.obj [("status", .str "OK")]) =
      .error (.keyError "routes") :=
  ⟨by decide, by rfl⟩

/-- Witness for the amended C1: a `REQUEST_DENIED` response raises the
RuntimeError carrying status and error message. -/
theorem C1_call_directions_witness :
    call_directions PLACES
        (.obj [("status", .str "REQUEST_DENIED"), ("error_message", .str "bad key")]) =
      .error (.runtimeError ("Directions API error: " ++
        pyStr (status_of
          (.obj [("status", .str "REQUEST_DENIED"), ("error_message", .str "bad key")])) ++
        " - " ++
        pyStr (errmsg_of
          (.obj [("status", .str "REQUEST_DENIED"), ("error_message", .str "bad key")])))) :=
  (C1_call_directions_amended _ _ rfl (by decide)).2.1 (by decide)

/-! ### Claim C8: optimization never moves the endpoints -/

set_option maxHeartbeats 2000000 in
/-- Claim C8: for every waypoint order over the three middle places, the
comprehension keeps exactly the middle places (reordered), so the itinerary
`main` builds is the first place, then the permuted middle stops, then the
last place — it begins with the first element of `PLACES` and ends with the
last — and the share link likewise places the first element as origin and
the last as destination. -/
theorem C8_endpoints (ord : List Int) (hord : ∀ i ∈ ord, 0 ≤ i ∧ i.toNat < 3) :
    optimized_waypoints (midSlice PLACES) (.arr (ord.map (fun i => .int i))) =
      .ok (ord, ord.map (fun i => (midSlice PLACES).getD i.toNat "")) ∧
    (∀ (data : JValue) (info : DirectionsResult) (tm ts : Int) (link : String),
      call_directions PLACES data = .ok info →
      info.waypoint_order = .arr (ord.map (fun i => .int i)) →
      compute_totals info.legs = .ok (tm, ts) →
      build_gmaps_share_link PLACES (some ord) = .ok link →
      main_body data = (stops_header ++
        itinerary_lines
          ("Royal Monastery of El Escorial, San Lorenzo de El Escorial, Spain" ::
            (ord.map (fun i => (midSlice PLACES).getD i.toNat "")) ++
            ["Toledo Cathedral, Toledo, Spain"]) ++
        [s!"\nTotal Distance: {format_distance_meters tm}",
         s!"Total Duration: {format_duration_seconds ts}",
         "\nOpen this link for directions (optimized order):", link], none)) ∧
    (∃ w, build_gmaps_share_link PLACES (some ord) = .ok
      ("https://www.google.com/maps/dir/?api=1&origin=" ++
        encode_param "Royal Monastery of El Escorial, San Lorenzo de El Escorial, Spain" ++
        "&destination=" ++ encode_param "Toledo Cathedral, Toledo, Spain" ++
        "&travelmode=driving" ++ w)) := by
  have hlen : (midSlice PLACES).length = 3 := rfl
  have hord' : ∀ i ∈ ord, 0 ≤ i ∧ i.toNat < (midSlice PLACES).length := fun i hi =>
    ⟨(hord i hi).1, by rw [hlen]; exact (hord i hi).2⟩
  have how := optimized_waypoints_int (midSlice PLACES) ord hord'
  refine ⟨how, fun data info tm ts link hcd hwo ht hl => ?_, ?_⟩
  · exact main_body_ok data info (ord, ord.map (fun i => (midSlice PLACES).getD i.toNat ""))
      tm ts link hcd (by rw [hwo]; exact how) ht hl
  · refine ⟨(if (ord.map (fun i => (midSlice PLACES).getD i.toNat "")) = [] then ""
      else "&waypoints=" ++
        encode_param (join_sep "|" (ord.map (fun i => (midSlice PLACES).getD i.toNat "")))),
      ?_⟩
    rw [build_share_link_some PLACES ord (by decide) hord']
    rfl

/-- Witness for C8 with the order [2, 0, 1]. -/
theorem C8_endpoints_witness :
    optimized_waypoints (midSlice PLACES) (.arr (([2, 0, 1] : List Int).map (fun i => .int i))) =
      .ok ([2, 0, 1], ([2, 0, 1] : List Int).map (fun i => (midSlice PLACES).getD i.toNat "")) :=
  (C8_endpoints [2, 0, 1] (by decide)).1

/-! ### Claim C9: default waypoint order -/

theorem call_directions_ok (places : List String) (kvs rkvs : List (String × JValue))
    (rest : List JValue)
    (hst : alookup kvs "status" = some (.str "OK"))
    (hr : alookup kvs "routes" = some (.arr (.obj rkvs :: rest)))
    (hop : opoly_ok rkvs = true) :
    ∃ ptsv, call_directions places (.obj kvs) = .ok
      ⟨(alookup rkvs "waypoint_order").getD
         (.arr ((List.range (midSlice places).length).map (fun i => .int i))),
       (alookup rkvs "legs").getD (.arr []),
       ptsv⟩ := by
  have hs : dictGet (JValue.obj kvs) "status" JValue.null = .ok (JValue.str "OK") := by
    unfold dictGet
    dsimp only
    rw [hst]
    rfl
  have hok : isOkStatus (JValue.str "OK") = true := rfl
  have hri : dictIndex (JValue.obj kvs) "routes" =
      .ok (JValue.arr (JValue.obj rkvs :: rest)) := by
    unfold dictIndex
    dsimp only
    rw [hr]
  rcases hov : alookup rkvs "overview_polyline" with _ | v
  · refine ⟨.str "", ?_⟩
    unfold call_directions
    rw [hs]
    simp only [ebind_ok]
    rw [if_pos hok, hri]
    simp only [ebind_ok]
    rw [show seqIndex (JValue.arr (JValue.obj rkvs :: rest)) 0 =
      .ok (JValue.obj rkvs) from rfl]
    simp only [ebind_ok]
    rw [show dictGet (JValue.obj rkvs) "overview_polyline" (JValue.obj []) =
      .ok ((alookup rkvs "overview_polyline").getD (JValue.obj [])) from rfl, hov]
    rfl
  · cases v with
    | obj pkvs =>
      refine ⟨(alookup pkvs "points").getD (.str ""), ?_⟩
      unfold call_directions
      rw [hs]
      simp only [ebind_ok]
      rw [if_pos hok, hri]
      simp only [ebind_ok]
      rw [show seqIndex (JValue.arr (JValue.obj rkvs :: rest)) 0 =
        .ok (JValue.obj rkvs) from rfl]
      simp only [ebind_ok]
      rw [show dictGet (JValue.obj rkvs) "overview_polyline" (JValue.obj []) =
        .ok ((alookup rkvs "overview_polyline").getD (JValue.obj [])) from rfl, hov]
      rfl
    | null => exact absurd hop (by simp [opoly_ok, hov])
    | bool b => exact absurd hop (by simp [opoly_ok, hov])
    | int n => exact absurd hop (by simp [opoly_ok, hov])
    | str s => exact absurd hop (by simp [opoly_ok, hov])
    | arr xs => exact absurd hop (by simp [opoly_ok, hov])

theorem midSlice_length (places : List String) :
    (midSlice places).length = places.length - 2 := by
  simp only [midSlice, List.length_dropLast, List.length_drop]
  omega

theorem range_int_getD (xs : List String) :
    ((List.range xs.length).map (fun i : Nat => (i : Int))).map
      (fun i => xs.getD i.toNat "") = xs := by
  apply List.ext_getElem
  · simp
  · intro i h1 h2
    simp only [List.getElem_map, List.getElem_range]
    simp [List.getD_eq_getElem?_getD, List.getElem?_eq_getElem h2]

theorem dropLast_getD (t : List String) (h : t ≠ []) :
    t.dropLast ++ [t.getD (t.length - 1) ""] = t := by
  induction t with
  | nil => exact absurd rfl h
  | cons b t ih =>
    cases t with
    | nil => rfl
    | cons c u =>
      have hne : (c :: u) ≠ [] := by simp
      have hidx : (b :: c :: u).length - 1 = ((c :: u).length - 1) + 1 := by
        simp only [List.length_cons]
        omega
      rw [show (b :: c :: u).dropLast = b :: (c :: u).dropLast from rfl, hidx,
        List.getD_cons_succ, List.cons_append, ih hne]

theorem cons_mid_last (places : List String) (h2 : 2 ≤ places.length) :
    places.getD 0 "" :: (midSlice places ++ [places.getD (places.length - 1) ""]) =
      places := by
  cases places with
  | nil => simp at h2
  | cons a t =>
    have ht : t ≠ [] := by
      intro h
      subst h
      simp at h2
    have hpos : 0 < t.length := List.length_pos.mpr ht
    have hlen : (a :: t).length - 1 = (t.length - 1) + 1 := by
      simp only [List.length_cons]
      omega
    rw [show midSlice (a :: t) = t.dropLast from rfl,
      show (a :: t).getD 0 "" = a from rfl, hlen, List.getD_cons_succ,
      dropLast_getD t ht]

theorem directions_url_two (key a b : String) :
    directions_url key [a, b] = .ok
      ("https://maps.googleapis.com/maps/api/directions/json?origin=" ++ encode_param a ++
        "&destination=" ++ encode_param b ++ "&mode=driving&language=en&key=" ++
        encode_param key) := by
  unfold directions_url
  dsimp only
  rw [show pyIndex [a, b] (0 : Int) = .ok a from rfl]
  simp only [ebind_ok]
  rw [show pyIndex [a, b] (-1 : Int) = .ok b from rfl]
  simp only [ebind_ok]
  rw [show (if midSlice [a, b] = [] then ([] : List (String × String)) else
    [("waypoints", "optimize:true|" ++ join_sep "|" (midSlice [a, b]))]) =
    ([] : List (String × String)) from rfl]
  simp only [List.append_nil, List.map_cons, List.map_nil]
  rw [show encode_param "driving" = "driving" from by decide,
    show encode_param "en" = "en" from by decide]
  simp only [join_sep]
  exact congrArg Except.ok (by
    apply String.ext
    simp [String.data_append, List.append_assoc])

theorem coe_list_int (l : List Nat) :
    (do let a ← l
        pure ((a : Int))) = l.map (fun i : Nat => (i : Int)) := by
  induction l with
  | nil => rfl
  | cons x t ih =>
    show (x :: t).flatMap (fun a => [((a : Int))]) = _
    rw [List.flatMap_cons]
    simp only [List.map_cons, List.singleton_append]
    exact congrArg (List.cons _) ih

/-- Claim C9: when the directions response carries no waypoint_order field,
`call_directions` returns the identity order `list(range(len(waypoints)))`;
applying the waypoint comprehension to that order reproduces the middle
places unchanged, so the reassembled itinerary is the original place order;
and with exactly two places the request URL omits the waypoints parameter
and the default order is the empty list. -/
theorem C9_default_order (places : List String) (kvs rkvs : List (String × JValue))
    (rest : List JValue) (h2 : 2 ≤ places.length)
    (hst : alookup kvs "status" = some (.str "OK"))
    (hr : alookup kvs "routes" = some (.arr (.obj rkvs :: rest)))
    (hwo : alookup rkvs "waypoint_order" = none)
    (hop : opoly_ok rkvs = true) :
    (∃ legsv ptsv, call_directions places (.obj kvs) = .ok
      ⟨.arr ((List.range (midSlice places).length).map (fun i => .int i)),
       legsv, ptsv⟩) ∧
    optimized_waypoints (midSlice places)
        (.arr ((List.range (midSlice places).length).map (fun i => .int i))) =
      .ok ((List.range (midSlice places).length).map (fun i : Nat => (i : Int)),
        midSlice places) ∧
    places.getD 0 "" :: (midSlice places ++ [places.getD (places.length - 1) ""]) =
      places ∧
    (∀ key a b : String, directions_url key [a, b] = .ok
      ("https://maps.googleapis.com/maps/api/directions/json?origin=" ++
        encode_param a ++ "&destination=" ++ encode_param b ++
        "&mode=driving&language=en&key=" ++ encode_param key)) ∧
    (places.length = 2 → midSlice places = [] ∧
      (List.range (midSlice places).length).map (fun i => JValue.int i) = []) := by
  obtain ⟨ptsv, hcall⟩ := call_directions_ok places kvs rkvs rest hst hr hop
  rw [hwo, Option.getD_none] at hcall
  refine ⟨⟨_, ptsv, hcall⟩, ?_, cons_mid_last places h2,
    fun key a b => directions_url_two key a b, ?_⟩
  · have hmm2 : ((List.range (midSlice places).length).map (fun i : Nat => (i : Int))).map
        (fun i => JValue.int i) =
        (List.range (midSlice places).length).map (fun i => JValue.int i) := by
      rw [coe_list_int]
    have hbd : ∀ i ∈ (List.range (midSlice places).length).map (fun i : Nat => (i : Int)),
        0 ≤ i ∧ i.toNat < (midSlice places).length := by
      intro i hi
      simp only [List.mem_map, List.mem_range] at hi
      obtain ⟨j, hj, rfl⟩ := hi
      exact ⟨Int.natCast_nonneg j, by simpa using hj⟩
    have h := optimized_waypoints_int (midSlice places)
      ((List.range (midSlice places).length).map (fun i : Nat => (i : Int))) hbd
    rw [hmm2] at h
    rw [h, range_int_getD]
  · intro hl2
    have h0 : (midSlice places).length = 0 := by
      rw [midSlice_length, hl2]
    refine ⟨List.length_eq_zero.mp h0, ?_⟩
    rw [h0]
    rfl

/-- Witness for C9 on a two-place list and a minimal OK response with one
route object lacking waypoint_order. -/
theorem C9_default_order_witness :
    (["A", "B"] : List String).getD 0 "" ::
      (midSlice ["A", "B"] ++
        [(["A", "B"] : List String).getD ((["A", "B"] : List String).length - 1) ""]) =
      ["A", "B"] :=
  (C9_default_order ["A", "B"] [("status", .str "OK"), ("routes", .arr [.obj []])]
    [] [] (by decide) rfl rfl rfl rfl).2.2.1

/-! ### Claim C10: totals are sums over the legs -/

theorem field_contrib (kvs : List (String × JValue)) (field : String)
    (h : field_wf kvs field = true) :
    ∃ fObj v, dictGet (JValue.obj kvs) field (JValue.obj []) = .ok fObj ∧
      dictGet fObj "value" (JValue.int 0) = .ok v ∧
      pyInt (if pyFalsy v then JValue.int 0 else v) = .ok (field_val kvs field) := by
  rcases hf : alookup kvs field with _ | v
  · refine ⟨.obj [], .int 0, by simp [dictGet, hf], rfl, ?_⟩
    have hfv : field_val kvs field = 0 := by simp [field_val, hf]
    rw [hfv]
    rfl
  · cases v with
    | obj dk =>
      rcases hv : alookup dk "value" with _ | w
      · refine ⟨.obj dk, .int 0, by simp [dictGet, hf], by simp [dictGet, hv], ?_⟩
        have hfv : field_val kvs field = 0 := by simp [field_val, hf, hv]
        rw [hfv]
        rfl
      · cases w with
        | null =>
          refine ⟨.obj dk, .null, by simp [dictGet, hf], by simp [dictGet, hv], ?_⟩
          have hfv : field_val kvs field = 0 := by simp [field_val, hf, hv]
          rw [hfv]
          rfl
        | int n =>
          refine ⟨.obj dk, .int n, by simp [dictGet, hf], by simp [dictGet, hv], ?_⟩
          have hfv : field_val kvs field = n := by simp [field_val, hf, hv]
          rw [hfv]
          by_cases hn : n = 0
          · subst hn
            rfl
          · have hfls : pyFalsy (.int n) = false := by simp [pyFalsy, hn]
            rw [hfls]
            simp [pyInt]
        | bool b => exact absurd h (by simp [field_wf, hf, hv])
        | str s => exact absurd h (by simp [field_wf, hf, hv])
        | arr xs => exact absurd h (by simp [field_wf, hf, hv])
        | obj o => exact absurd h (by simp [field_wf, hf, hv])
    | null => exact absurd h (by simp [field_wf, hf])
    | bool b => exact absurd h (by simp [field_wf, hf])
    | int n => exact absurd h (by simp [field_wf, hf])
    | str s => exact absurd h (by simp [field_wf, hf])
    | arr xs => exact absurd h (by simp [field_wf, hf])

theorem leg_totals_wf (leg : JValue) (h : leg_wf leg = true) :
    leg_totals leg = .ok (dist_of leg, dur_of leg) := by
  cases leg with
  | obj kvs =>
    have hsplit : (field_wf kvs "distance" && field_wf kvs "duration") = true := h
    rw [Bool.and_eq_true] at hsplit
    obtain ⟨fObjD, vD, hD1, hD2, hD3⟩ := field_contrib kvs "distance" hsplit.1
    obtain ⟨fObjU, vU, hU1, hU2, hU3⟩ := field_contrib kvs "duration" hsplit.2
    unfold leg_totals
    rw [hD1]
    simp only [ebind_ok]
    rw [hD2]
    simp only [ebind_ok]
    rw [hU1]
    simp only [ebind_ok]
    rw [hU2]
    simp only [ebind_ok]
    rw [hD3]
    simp only [ebind_ok]
    rw [hU3]
    simp only [ebind_ok]
    rfl
  | null => simp [leg_wf] at h
  | bool b => simp [leg_wf] at h
  | int n => simp [leg_wf] at h
  | str s => simp [leg_wf] at h
  | arr xs => simp [leg_wf] at h

theorem compute_totals_wf (legs : List JValue) (h : ∀ l ∈ legs, leg_wf l = true) :
    compute_totals (.arr legs) = .ok ((legs.map dist_of).sum, (legs.map dur_of).sum) := by
  have key : ∀ (ls : List JValue), (∀ l ∈ ls, leg_wf l = true) → ∀ acc : Int × Int,
      ls.foldlM
        (fun acc leg => do
          let td ← leg_totals leg
          return (acc.1 + td.1, acc.2 + td.2)) acc =
      (.ok (acc.1 + (ls.map dist_of).sum, acc.2 + (ls.map dur_of).sum) :
        Except PyErr (Int × Int)) := by
    intro ls
    induction ls with
    | nil =>
      intro _ acc
      show (pure acc : Except PyErr (Int × Int)) = .ok (acc.1 + ([] : List Int).sum, acc.2 + ([] : List Int).sum)
      simp only [List.sum_nil, add_zero]
      rfl
    | cons lg t ih =>
      intro hl acc
      rw [List.foldlM_cons]
      rw [leg_totals_wf lg (hl lg (List.mem_cons_self lg t))]
      simp only [ebind_ok, pure_bind]
      rw [ih (fun l hli => hl l (List.mem_cons_of_mem lg hli))
        (acc.1 + dist_of lg, acc.2 + dur_of lg)]
      simp [List.map_cons, List.sum_cons, add_assoc]
  unfold compute_totals
  rw [show iterate (JValue.arr legs) = .ok legs from rfl]
  simp only [ebind_ok]
  rw [key legs h ((0 : Int), (0 : Int))]
  simp

/-- Claim C10: for every list of legs of the directions result (each absent
field, absent value, or `None`/zero value contributing 0), the totals loop
returns exactly the sum of the integer distance values and the sum of the
integer duration values, and the Total Distance / Total Duration lines the
run prints are formatted from those sums. -/
theorem C10_totals (legs : List JValue) (h : ∀ l ∈ legs, leg_wf l = true) :
    compute_totals (.arr legs) = .ok ((legs.map dist_of).sum, (legs.map dur_of).sum) ∧
    (∀ (key : Option String) (data : JValue) (ms : Except String Unit)
        (info : DirectionsResult) (ordmid : List Int × List String) (link : String),
      ¬ key.getD "" = "" →
      call_directions PLACES data = .ok info →
      info.legs = .arr legs →
      optimized_waypoints (midSlice PLACES) info.waypoint_order = .ok ordmid →
      build_gmaps_share_link PLACES (some ordmid.1) = .ok link →
      s!"\nTotal Distance: {format_distance_meters (legs.map dist_of).sum}" ∈
        (run key (.ok data) ms).output ∧
      s!"Total Duration: {format_duration_seconds (legs.map dur_of).sum}" ∈
        (run key (.ok data) ms).output) := by
  have hct := compute_totals_wf legs h
  refine ⟨hct, fun key data ms info ordmid link hk hcd hlegs how hl => ?_⟩
  have ht : compute_totals info.legs =
      .ok ((legs.map dist_of).sum, (legs.map dur_of).sum) := by
    rw [hlegs]
    exact hct
  have hmb := main_body_ok data info ordmid ((legs.map dist_of).sum)
    ((legs.map dur_of).sum) link hcd how ht hl
  have hrun := run_bodyok key data _ hk hmb
  cases ms with
  | ok u =>
    cases u
    rw [hrun.1]
    constructor
    · simp
    · simp
  | error e =>
    rw [hrun.2 e]
    constructor
    · simp
    · simp

/-- Witness for C10 on a single leg with distance 1500 m and duration 60 s. -/
theorem C10_totals_witness :
    compute_totals (.arr [.obj [("distance", .obj [("value", .int 1500)]),
        ("duration", .obj [("value", .int 60)])]]) =
      .ok ((([.obj [("distance", .obj [("value", .int 1500)]),
          ("duration", .obj [("value", .int 60)])]] : List JValue).map dist_of).sum,
        (([.obj [("distance", .obj [("value", .int 1500)]),
          ("duration", .obj [("value", .int 60)])]] : List JValue).map dur_of).sum) :=
  (C10_totals [.obj [("distance", .obj [("value", .int 1500)]),
      ("duration", .obj [("value", .int 60)])]]
    (by intro l hl; simp only [List.mem_singleton] at hl; subst hl; rfl)).1
